import Mathlib

/-!
Shallow embedding of the node-status-api mixmining core (Go) in Lean 4.

The embedding covers:
* the uptime percentage computation (`calculatePercent`, `CalculateUptime`
  from `mixmining/service.go`), including a faithful model of Go `float32`
  arithmetic in the IEEE-754 binary32 normal range;
* the status-report builder (`updateReportUpToLastHour`,
  `SaveBatchStatusReport` from `mixmining/service.go`);
* the persistence layer for registration and reputation
  (`RegisterMix`, `RegisterGateway`, `UpdateReputation`,
  `BatchUpdateReputation`, `IpExists`, `LoadNonStaleReports` in their two
  revisions);
* the HTTP admission handlers `RegisterMixPresence` and
  `RegisterGatewayPresence`, instrumented with an event trace that records
  the order of capacity checks, duplicate-address checks, version checks,
  lock operations and the insert.
-/

namespace NodeStatus

/-! ## Model of Go float32 arithmetic

`calculatePercent` in `mixmining/service.go` computes
`int(float32(num) / float32(outOf) * 100)`.  We model `float32` values as
the rationals representable with a 24-bit significand, and each operation
as the exact rational result rounded to nearest, ties to even (the IEEE-754
binary32 default).  Exponents are unbounded, which agrees with binary32 on
its normal range; the integer counts fed in by the service stay far inside
that range. -/

/-- Fueled floor of log₂ on naturals (structural recursion so that the
kernel can evaluate it). -/
def log2fuel : Nat → Nat → Nat
  | 0, _ => 0
  | fuel + 1, n => if n < 2 then 0 else log2fuel fuel (n / 2) + 1

/-- `natLog2 n` is `⌊log₂ n⌋` for `n ≥ 1`. -/
def natLog2 (n : Nat) : Nat := log2fuel n n

/-- A binary32 value represented exactly as the dyadic rational `m * 2 ^ e`. -/
structure F32 where
  m : ℤ
  e : ℤ
  deriving DecidableEq

/-- Round `a / b` (with `b > 0`) to the nearest integer, ties to even. -/
def rneDiv (a b : ℤ) : ℤ :=
  let q := Int.fdiv a b
  let r := Int.fmod a b
  if 2 * r < b then q
  else if b < 2 * r then q + 1
  else if q % 2 = 0 then q else q + 1

/-- Decides `b * 2 ^ k ≤ a`, i.e. `2 ^ k ≤ a / b` for positive `a`, `b`. -/
def le2pow (b a : ℤ) (k : ℤ) : Bool :=
  if 0 ≤ k then b * ((2 ^ k.toNat : Nat) : ℤ) ≤ a
  else b ≤ a * ((2 ^ (-k).toNat : Nat) : ℤ)

/-- Round the positive quotient `a / b` to the nearest binary32 value
(24-bit significand, round to nearest, ties to even), returned as a dyadic
`m * 2 ^ e` with `2^23 ≤ m ≤ 2^24`. -/
def roundDyadicPos (a b : ℤ) : F32 :=
  let e0 : ℤ := (natLog2 a.toNat : ℤ) - (natLog2 b.toNat : ℤ) - 1
  let E : ℤ := if le2pow b a (e0 + 1) then e0 + 1 else e0
  let sh := E - 23
  if 0 ≤ sh then ⟨rneDiv a (b * ((2 ^ sh.toNat : Nat) : ℤ)), sh⟩
  else ⟨rneDiv (a * ((2 ^ (-sh).toNat : Nat) : ℤ)) b, sh⟩

/-- Nearest binary32 value to the quotient `a / b` with `b > 0`. -/
def f32ofRatPair (a b : ℤ) : F32 :=
  if a = 0 then ⟨0, 0⟩
  else if a < 0 then
    let r := roundDyadicPos (-a) b
    ⟨-r.m, r.e⟩
  else roundDyadicPos a b

/-- Go `float32(n)` for an integer `n`. -/
def floatOfInt (n : ℤ) : F32 := f32ofRatPair n 1

/-- Go `float32` division: exact quotient rounded to nearest binary32.
(Division by zero never occurs on the modelled code paths.) -/
def f32div (x y : F32) : F32 :=
  if y.m = 0 then ⟨0, 0⟩
  else
    let s := if y.m < 0 then f32ofRatPair (-x.m) (-y.m) else f32ofRatPair x.m y.m
    ⟨s.m, s.e + x.e - y.e⟩

/-- Go `float32` multiplication: exact product rounded to nearest binary32. -/
def f32mul (x y : F32) : F32 :=
  let s := f32ofRatPair (x.m * y.m) 1
  ⟨s.m, s.e + x.e + y.e⟩

/-- Go `int(x)` for a `float32` value `x`: truncation toward zero. -/
def truncToInt (x : F32) : ℤ :=
  if 0 ≤ x.e then x.m * ((2 ^ x.e.toNat : Nat) : ℤ)
  else
    let q : Nat := x.m.natAbs / 2 ^ (-x.e).toNat
    if 0 ≤ x.m then (q : ℤ) else -(q : ℤ)

/-- `Service.calculatePercent` from `mixmining/service.go`:
`int(float32(num) / float32(outOf) * 100)`. -/
def calculatePercent (num outOf : ℤ) : ℤ :=
  truncToInt (f32mul (f32div (floatOfInt num) (floatOfInt outOf)) (floatOfInt 100))

/-! ## Data model (`models/mixmining.go`)

Go struct embedding is modelled by flattening the embedded fields.
`Up` is a `*bool` in Go purely to work around JSON binding of `false`;
on every modelled code path it is non-nil and dereferenced, so it is a
`Bool` here.  The `Owner` field is present in the models revision used by
`mixmining/service.go` (which reads `status.Owner`). -/

/-- `models.PersistedMixStatus` (with the embedded `MixStatus` flattened). -/
structure PersistedMixStatus where
  pubKey : String
  owner : String
  ipVersion : String
  up : Bool
  timestamp : ℤ
  deriving DecidableEq

/-- `models.MixStatusReport`. -/
structure MixStatusReport where
  pubKey : String
  owner : String
  mostRecentIPV4 : Bool
  last5MinutesIPV4 : ℤ
  lastHourIPV4 : ℤ
  lastDayIPV4 : ℤ
  mostRecentIPV6 : Bool
  last5MinutesIPV6 : ℤ
  lastHourIPV6 : ℤ
  lastDayIPV6 : ℤ
  deriving DecidableEq

/-- The Go zero value `var freshReport models.MixStatusReport`. -/
def freshMixStatusReport : MixStatusReport :=
  ⟨"", "", false, 0, 0, 0, false, 0, 0, 0⟩

/-! ## Status store and uptime computation (`mixmining/service.go`)

The statuses table is the only storage the uptime calculation reads; it is
modelled as the list of persisted statuses.  The `ORDER BY timestamp desc`
of the SQL query is dropped because every modelled consumer of the result
only counts elements. -/

/-- The mix-status table together with the report table, as read and
written by the service functions under verification. -/
structure StatusDb where
  statuses : List PersistedMixStatus
  reports : List MixStatusReport
  deriving DecidableEq

/-- `Db.ListMixStatusSince`: all statuses of `pubkey` for `ipVersion` with
`timestamp >= since`. -/
def listMixStatusSince (db : StatusDb) (pubkey ipVersion : String) (since : ℤ) :
    List PersistedMixStatus :=
  db.statuses.filter fun s =>
    s.pubKey == pubkey && s.ipVersion == ipVersion && since ≤ s.timestamp

/-- `Service.CalculateUptime`: `-1` when no matching statuses exist,
otherwise the percentage of `up` statuses via `calculatePercent`. -/
def calculateUptime (db : StatusDb) (pubkey ipVersion : String) (since : ℤ) : ℤ :=
  let statuses := listMixStatusSince db pubkey ipVersion since
  let numStatuses := statuses.length
  if numStatuses = 0 then -1
  else
    let up := (statuses.filter fun s => s.up).length
    calculatePercent (up : ℤ) (numStatuses : ℤ)

/-- `minutesAgo` from `mixmining/service.go`, with the current instant
passed explicitly (the source reads it from the mocked clock):
`now - minutes * 60 * 1e9` nanoseconds. -/
def minutesAgo (now : ℤ) (minutes : ℤ) : ℤ := now - minutes * 60 * 1000000000

/-- `Service.updateReportUpToLastHour`: write the observation's
`mostRecent` and recompute the 5-minute and 1-hour windows, for the
observation's IP version only; always (re)set the key and owner. -/
def updateReportUpToLastHour (db : StatusDb) (now : ℤ) (report : MixStatusReport)
    (status : PersistedMixStatus) : MixStatusReport :=
  let report := { report with pubKey := status.pubKey, owner := status.owner }
  if status.ipVersion == "4" then
    { report with
      mostRecentIPV4 := status.up
      last5MinutesIPV4 := calculateUptime db status.pubKey "4" (minutesAgo now 5)
      lastHourIPV4 := calculateUptime db status.pubKey "4" (minutesAgo now 60) }
  else if status.ipVersion == "6" then
    { report with
      mostRecentIPV6 := status.up
      last5MinutesIPV6 := calculateUptime db status.pubKey "6" (minutesAgo now 5)
      lastHourIPV6 := calculateUptime db status.pubKey "6" (minutesAgo now 60) }
  else report

/-- `Db.BatchLoadReports`: the stored reports whose key occurs in
`pubkeys`. -/
def batchLoadReports (db : StatusDb) (pubkeys : List String) : List MixStatusReport :=
  db.reports.filter fun r => pubkeys.contains r.pubKey

/-! ## `Service.SaveBatchStatusReport`

The Go code loads the affected reports, builds a map from public key to
the index of that key's report (`for i, report := range batchReport.Report
\x7b reportMap[report.PubKey] = i \x7d`, where a later assignment to the same
key shadows an earlier one), and then walks the incoming statuses in input
order, updating in place or appending a fresh report.  The Go map is
modelled as a function `String → Option Nat`. -/

/-- The report map built by the indexing loop, starting at index `base`.
Entries of the tail (higher indices, assigned later in the loop) shadow
the head entry on lookup, matching Go map assignment. -/
def buildReportMapFrom (base : Nat) : List MixStatusReport → (String → Option Nat)
  | [] => fun _ => none
  | r :: rest => fun k =>
      match buildReportMapFrom (base + 1) rest k with
      | some i => some i
      | none => if k == r.pubKey then some base else none

/-- Go map assignment `m[k] = i`. -/
def mapInsert (m : String → Option Nat) (k : String) (i : Nat) (q : String) :
    Option Nat :=
  if q == k then some i else m q

/-- The loop body of `SaveBatchStatusReport`: apply one status to the
accumulated report list and report map. -/
def saveBatchStep (db : StatusDb) (now : ℤ)
    (acc : List MixStatusReport × (String → Option Nat))
    (s : PersistedMixStatus) : List MixStatusReport × (String → Option Nat) :=
  let (reports, m) := acc
  match m s.pubKey with
  | some i =>
      (reports.set i (updateReportUpToLastHour db now (reports.getD i freshMixStatusReport) s), m)
  | none =>
      let fresh := updateReportUpToLastHour db now freshMixStatusReport s
      (reports ++ [fresh], mapInsert m fresh.pubKey reports.length)

/-- `Service.SaveBatchStatusReport`, returning the batch report that is
passed to `SaveBatchMixStatusReport` and returned to the caller. -/
def saveBatchStatusReport (db : StatusDb) (now : ℤ)
    (status : List PersistedMixStatus) : List MixStatusReport :=
  let pubkeys := status.map (·.pubKey)
  let loaded := batchLoadReports db pubkeys
  (status.foldl (saveBatchStep db now) (loaded, buildReportMapFrom 0 loaded)).1

/-! ## Registration / reputation persistence (`mixmining/db.go`, the
revision holding the registration tables)

`RegisteredMix` and `RegisteredGateway` embed `NodeInfo`; the embedding is
flattened.  `gorm.DeletedAt` is modelled as a `Bool` soft-delete marker
(`false` = not deleted, the zero value). -/

/-- `models.RegisteredMix` (embedded structs flattened). -/
structure RegisteredMix where
  mixHost : String
  identityKey : String
  sphinxKey : String
  version : String
  location : String
  incentivesAddress : String
  layer : Nat
  registrationTime : ℤ
  reputation : ℤ
  deleted : Bool
  deriving DecidableEq

/-- `models.RegisteredGateway` (embedded structs flattened). -/
structure RegisteredGateway where
  mixHost : String
  identityKey : String
  sphinxKey : String
  version : String
  location : String
  incentivesAddress : String
  clientsHost : String
  registrationTime : ℤ
  reputation : ℤ
  deleted : Bool
  deriving DecidableEq

/-- The registration-side tables of the database. -/
structure RegDb where
  mixes : List RegisteredMix
  gateways : List RegisteredGateway
  removedMixes : List RegisteredMix
  removedGateways : List RegisteredGateway
  deriving DecidableEq

/-- SQL `UPDATE … WHERE p`: apply `f` to every matching row, returning the
new table and the number of affected rows. -/
def updateRowsWhere (p : α → Bool) (f : α → α) (l : List α) : List α × Nat :=
  (l.map fun r => if p r then f r else r, (l.filter p).length)

/-- The `ON CONFLICT … DO UPDATE` assignment of `Db.RegisterMix`: the
columns `mix_host, sphinx_key, version, location, layer,
registration_time, deleted, incentives_address` are overwritten from the
new row `mix` on the conflicting row (`identity_key` and `reputation` are
kept). -/
def mixConflictUpdate (mix r : RegisteredMix) : RegisteredMix :=
  if r.identityKey == mix.identityKey then
    { r with
      mixHost := mix.mixHost, sphinxKey := mix.sphinxKey,
      version := mix.version, location := mix.location,
      layer := mix.layer, registrationTime := mix.registrationTime,
      deleted := mix.deleted, incentivesAddress := mix.incentivesAddress }
  else r

/-- `Db.RegisterMix`: insert-or-update keyed on `identity_key`, then
delete any `RemovedMix` row for the identity. -/
def registerMix (db : RegDb) (mix : RegisteredMix) : RegDb :=
  let mixes :=
    if db.mixes.any fun r => r.identityKey == mix.identityKey then
      db.mixes.map (mixConflictUpdate mix)
    else db.mixes ++ [mix]
  { db with
    mixes := mixes
    removedMixes := db.removedMixes.filter fun r => !(r.identityKey == mix.identityKey) }

/-- The `ON CONFLICT … DO UPDATE` assignment of `Db.RegisterGateway`: the
columns `mix_host, sphinx_key, version, location, clients_host,
registration_time, deleted, incentives_address` are overwritten from the
new row (`identity_key` and `reputation` are kept). -/
def gatewayConflictUpdate (gateway r : RegisteredGateway) : RegisteredGateway :=
  if r.identityKey == gateway.identityKey then
    { r with
      mixHost := gateway.mixHost, sphinxKey := gateway.sphinxKey,
      version := gateway.version, location := gateway.location,
      clientsHost := gateway.clientsHost,
      registrationTime := gateway.registrationTime,
      deleted := gateway.deleted,
      incentivesAddress := gateway.incentivesAddress }
  else r

/-- `Db.RegisterGateway`: insert-or-update keyed on `identity_key`, then
delete any `RemovedGateway` row for the identity. -/
def registerGateway (db : RegDb) (gateway : RegisteredGateway) : RegDb :=
  let gateways :=
    if db.gateways.any fun r => r.identityKey == gateway.identityKey then
      db.gateways.map (gatewayConflictUpdate gateway)
    else db.gateways ++ [gateway]
  { db with
    gateways := gateways
    removedGateways := db.removedGateways.filter fun r => !(r.identityKey == gateway.identityKey) }

/-- `Db.UpdateReputation`: conditional reputation adjustment.  For a
negative delta the SQL update is guarded by
`identity_key = ? AND reputation >= -delta`; the mix table is tried first
and the gateway table only if no mix row was affected.  Returns the new
database and whether any row was updated. -/
def updateReputation (db : RegDb) (id : String) (repIncrease : ℤ) : RegDb × Bool :=
  if repIncrease < 0 then
    let mixResult := updateRowsWhere
      (fun r => r.identityKey == id && decide (-repIncrease ≤ r.reputation))
      (fun r => { r with reputation := r.reputation + repIncrease }) db.mixes
    if 0 < mixResult.2 then ({ db with mixes := mixResult.1 }, true)
    else
      let gwResult := updateRowsWhere
        (fun r => r.identityKey == id && decide (-repIncrease ≤ r.reputation))
        (fun r => { r with reputation := r.reputation + repIncrease }) db.gateways
      ({ db with mixes := mixResult.1, gateways := gwResult.1 }, 0 < gwResult.2)
  else
    let mixResult := updateRowsWhere
      (fun r => r.identityKey == id)
      (fun r => { r with reputation := r.reputation + repIncrease }) db.mixes
    if 0 < mixResult.2 then ({ db with mixes := mixResult.1 }, true)
    else
      let gwResult := updateRowsWhere
        (fun r => r.identityKey == id)
        (fun r => { r with reputation := r.reputation + repIncrease }) db.gateways
      ({ db with mixes := mixResult.1, gateways := gwResult.1 }, 0 < gwResult.2)

/-- `Db.BatchUpdateReputation`: for each entry of the change map, run the
guarded mix-table update and, if it affected no rows, the guarded
gateway-table update (row counts are not returned to the caller). -/
def batchUpdateReputation (db : RegDb) (reputationChangeMap : List (String × ℤ)) : RegDb :=
  reputationChangeMap.foldl
    (fun d e =>
      let id := e.1
      let repChange := e.2
      if repChange < 0 then
        let mixResult := updateRowsWhere
          (fun r => r.identityKey == id && decide (-repChange ≤ r.reputation))
          (fun r => { r with reputation := r.reputation + repChange }) d.mixes
        if mixResult.2 = 0 then
          let gwResult := updateRowsWhere
            (fun r => r.identityKey == id && decide (-repChange ≤ r.reputation))
            (fun r => { r with reputation := r.reputation + repChange }) d.gateways
          { d with mixes := mixResult.1, gateways := gwResult.1 }
        else { d with mixes := mixResult.1 }
      else
        let mixResult := updateRowsWhere
          (fun r => r.identityKey == id)
          (fun r => { r with reputation := r.reputation + repChange }) d.mixes
        if mixResult.2 = 0 then
          let gwResult := updateRowsWhere
            (fun r => r.identityKey == id)
            (fun r => { r with reputation := r.reputation + repChange }) d.gateways
          { d with mixes := mixResult.1, gateways := gwResult.1 }
        else { d with mixes := mixResult.1 })
    db

/-! ## `Db.IpExists` and its host parsing

`IpExists` first runs `net.SplitHostPort` on the candidate address; on
error it falls back to `strings.Split` (note that in the source the
address variable has already been overwritten by the empty host value
returned together with the error).  The extracted host is then matched
against registered addresses with SQL `LIKE '%host%'`, i.e. substring
containment (SQLite's ASCII case folding and `%`/`_` wildcards inside the
searched host are not modelled; hosts are compared as-is). -/

/-- Index of the last occurrence of `c`, as in Go's `last` helper. -/
def lastIndexOfChar (c : Char) : List Char → Option Nat
  | [] => none
  | x :: xs =>
      match lastIndexOfChar c xs with
      | some i => some (i + 1)
      | none => if x = c then some 0 else none

/-- Index of the first occurrence of `c` (Go `byteIndex`). -/
def indexOfChar (c : Char) : List Char → Option Nat
  | [] => none
  | x :: xs => if x = c then some 0 else (indexOfChar c xs).map (· + 1)

/-- Go `strings.Split(s, c)` for a single-character separator. -/
def splitOnChar (c : Char) : List Char → List (List Char)
  | [] => [[]]
  | x :: xs =>
      match splitOnChar c xs with
      | [] => [[x]]
      | y :: ys => if x = c then [] :: y :: ys else (x :: y) :: ys

/-- Does `hay` start with `needle`? -/
def startsWith : List Char → List Char → Bool
  | _, [] => true
  | [], _ :: _ => false
  | h :: hs, n :: ns => h == n && startsWith hs ns

/-- Substring containment, the semantics of SQL `LIKE '%needle%'`. -/
def strContains (hay needle : List Char) : Bool :=
  match hay with
  | [] => needle.isEmpty
  | _ :: t => startsWith hay needle || strContains t needle

/-- `net.SplitHostPort`: `some (host, port)` on success, `none` on any of
the error returns (missing port, too many colons, bracket errors). -/
def splitHostPort (hostPort : String) : Option (List Char × List Char) :=
  let cs := hostPort.data
  match lastIndexOfChar ':' cs with
  | none => none
  | some i =>
      let port := cs.drop (i + 1)
      if cs.head? = some '[' then
        match indexOfChar ']' cs with
        | none => none
        | some endIdx =>
            if endIdx + 1 = cs.length then none
            else if endIdx + 1 = i then
              let host := (cs.drop 1).take (endIdx - 1)
              if (cs.drop 1).contains '[' then none
              else if (cs.drop (endIdx + 1)).contains ']' then none
              else some (host, port)
            else none
      else
        let host := cs.take i
        if host.contains ':' then none
        else if cs.contains '[' then none
        else if cs.contains ']' then none
        else some (host, port)

/-- `Db.IpExists`: extract the host portion of `ip` and test it for
substring collision against every registered mix `mix_host` and every
registered gateway `mix_host`/`clients_host`. -/
def ipExists (db : RegDb) (ip : String) : Bool :=
  match splitHostPort ip with
  | none =>
      -- the source reuses the host returned together with the error,
      -- which is always the empty string
      let split := splitOnChar ':' ("".data)
      if split.length ≠ 2 then true
      else
        let host := split.getD 0 []
        (db.mixes.any fun m => strContains m.mixHost.data host) ||
        (db.gateways.any fun g =>
          strContains g.mixHost.data host || strContains g.clientsHost.data host)
  | some (host, _) =>
      (db.mixes.any fun m => strContains m.mixHost.data host) ||
      (db.gateways.any fun g =>
        strContains g.mixHost.data host || strContains g.clientsHost.data host)

/-! ## The two revisions of the non-stale report query (`db.go`)

Revision A (`LoadNonStaleReports`): `last_day_ip_v4 >= 50 OR
last_day_ip_v6 >= 50`.  Revision B (`LoadNonStaleMixReports`):
`last_day_ip_v4 > 0 OR last_day_ip_v6 > 0`. -/

/-- `Db.LoadNonStaleReports` (the `>= 50` revision). -/
def loadNonStaleReports (reports : List MixStatusReport) : List MixStatusReport :=
  reports.filter fun r => decide (50 ≤ r.lastDayIPV4) || decide (50 ≤ r.lastDayIPV6)

/-- `Db.LoadNonStaleMixReports` (the `> 0` revision). -/
def loadNonStaleMixReports (reports : List MixStatusReport) : List MixStatusReport :=
  reports.filter fun r => decide (0 < r.lastDayIPV4) || decide (0 < r.lastDayIPV6)

/-! ## Registration admission controller

`RegisterMixPresence` / `RegisterGatewayPresence` from the mixmining HTTP
controller.  Each handler is embedded as a function on the controller
state that also returns the trace of admission-relevant events in source
order (capacity comparisons, the duplicate-address check, the version
check, mutex operations, the insert and the cached-count update).  JSON
binding and sanitization are transport concerns and take no part in the
admission sequence. -/

/-- `MaximumMixnodes` from the controller source. -/
def MaximumMixnodes : Nat := 1500

/-- `MaximumGateways` from the controller source. -/
def MaximumGateways : Nat := 1000

/-- `SystemVersion` from the controller source. -/
def SystemVersion : String := "0.9.2"

/-- `models.MixRegistrationInfo` (embedded `NodeInfo` flattened). -/
structure MixRegistrationInfo where
  mixHost : String
  identityKey : String
  sphinxKey : String
  version : String
  location : String
  incentivesAddress : String
  layer : Nat
  deriving DecidableEq

/-- `models.GatewayRegistrationInfo` (embedded `NodeInfo` flattened). -/
structure GatewayRegistrationInfo where
  mixHost : String
  identityKey : String
  sphinxKey : String
  version : String
  location : String
  incentivesAddress : String
  clientsHost : String
  deriving DecidableEq

/-- The controller state: the database behind the service plus the cached
node counts. -/
structure Controller where
  db : RegDb
  mixCount : Nat
  gatewayCount : Nat
  deriving DecidableEq

/-- Admission-relevant events, in the order the handler performs them. -/
inductive RegEvent where
  | capacityCheck
  | dupIpCheck
  | versionCheck
  | lockAcquire
  | lockRelease
  | insert
  | countUpdate
  deriving DecidableEq

/-- Handler outcomes (HTTP 200 / the three 409 Conflict reasons). -/
inductive RegResponse where
  | ok
  | conflictCapacity
  | conflictDuplicateIp
  | conflictVersion
  deriving DecidableEq

/-- Result of a registration handler: response, new controller state, and
the trace of admission events. -/
structure RegResult where
  response : RegResponse
  ctrl : Controller
  events : List RegEvent
  deriving DecidableEq

/-- Modelled from the spec: `Service.CheckForDuplicateIP` (the service
wrapper is absent from the sources; per the spec's `AddressInUse` it
forwards to the store's address collision test `IpExists`). -/
def checkForDuplicateIP (db : RegDb) (host : String) : Bool := ipExists db host

/-- Modelled from the spec: `Service.MixCount` (`CurrentMixCount`), the
number of currently registered mixes. -/
def serviceMixCount (db : RegDb) : Nat := db.mixes.length

/-- Modelled from the spec: `Service.GatewayCount` (`CurrentGatewayCount`),
the number of currently registered gateways. -/
def serviceGatewayCount (db : RegDb) : Nat := db.gateways.length

/-- Modelled from the spec and the service tests: `Service.RegisterMix`
wraps the registration info into a `RegisteredMix` with zero reputation
and zero timestamp and stores it. -/
def serviceRegisterMix (db : RegDb) (info : MixRegistrationInfo) : RegDb :=
  registerMix db
    { mixHost := info.mixHost, identityKey := info.identityKey,
      sphinxKey := info.sphinxKey, version := info.version,
      location := info.location, incentivesAddress := info.incentivesAddress,
      layer := info.layer, registrationTime := 0, reputation := 0,
      deleted := false }

/-- Modelled from the spec and the service tests: `Service.RegisterGateway`
wraps the registration info into a `RegisteredGateway` with zero
reputation and zero timestamp and stores it. -/
def serviceRegisterGateway (db : RegDb) (info : GatewayRegistrationInfo) : RegDb :=
  registerGateway db
    { mixHost := info.mixHost, identityKey := info.identityKey,
      sphinxKey := info.sphinxKey, version := info.version,
      location := info.location, incentivesAddress := info.incentivesAddress,
      clientsHost := info.clientsHost, registrationTime := 0, reputation := 0,
      deleted := false }

/-- `controller.RegisterMixPresence`: capacity pre-check, duplicate-IP
check, version check, capacity re-check, mutex acquisition, third capacity
check under the mutex, insert, cached-count update (the deferred unlock
runs on every return after the `Lock()`). -/
def registerMixPresence (c : Controller) (presence : MixRegistrationInfo) : RegResult :=
  if MaximumMixnodes ≤ c.mixCount then
    ⟨.conflictCapacity, c, [.capacityCheck]⟩
  else if checkForDuplicateIP c.db presence.mixHost then
    ⟨.conflictDuplicateIp, c, [.capacityCheck, .dupIpCheck]⟩
  else if presence.version ≠ SystemVersion then
    ⟨.conflictVersion, c, [.capacityCheck, .dupIpCheck, .versionCheck]⟩
  else if MaximumMixnodes ≤ c.mixCount then
    ⟨.conflictCapacity, c,
      [.capacityCheck, .dupIpCheck, .versionCheck, .capacityCheck]⟩
  else if MaximumMixnodes ≤ c.mixCount then
    ⟨.conflictCapacity, c,
      [.capacityCheck, .dupIpCheck, .versionCheck, .capacityCheck,
       .lockAcquire, .capacityCheck, .lockRelease]⟩
  else
    let db := serviceRegisterMix c.db presence
    ⟨.ok, ⟨db, serviceMixCount db, c.gatewayCount⟩,
      [.capacityCheck, .dupIpCheck, .versionCheck, .capacityCheck,
       .lockAcquire, .capacityCheck, .insert, .countUpdate, .lockRelease]⟩

/-- `controller.RegisterGatewayPresence`: a single capacity check, the
duplicate-IP check, the version check, then the insert and cached-count
update; the handler neither re-checks capacity nor touches the
registration mutex. -/
def registerGatewayPresence (c : Controller) (presence : GatewayRegistrationInfo) :
    RegResult :=
  if MaximumGateways ≤ c.gatewayCount then
    ⟨.conflictCapacity, c, [.capacityCheck]⟩
  else if checkForDuplicateIP c.db presence.mixHost then
    ⟨.conflictDuplicateIp, c, [.capacityCheck, .dupIpCheck]⟩
  else if presence.version ≠ SystemVersion then
    ⟨.conflictVersion, c, [.capacityCheck, .dupIpCheck, .versionCheck]⟩
  else
    let db := serviceRegisterGateway c.db presence
    ⟨.ok, ⟨db, c.mixCount, serviceGatewayCount db⟩,
      [.capacityCheck, .dupIpCheck, .versionCheck, .insert, .countUpdate]⟩

/-! # Theorems -/

/-- The registered-mix rows carrying a given identity key. -/
def mixRowsFor (db : RegDb) (k : String) : List RegisteredMix :=
  db.mixes.filter fun r => r.identityKey == k

/-- The registered-gateway rows carrying a given identity key. -/
def gatewayRowsFor (db : RegDb) (k : String) : List RegisteredGateway :=
  db.gateways.filter fun r => r.identityKey == k

theorem mixConflictUpdate_identityKey (m r : RegisteredMix) :
    (mixConflictUpdate m r).identityKey = r.identityKey := by
  unfold mixConflictUpdate
  split <;> rfl

theorem gatewayConflictUpdate_identityKey (g r : RegisteredGateway) :
    (gatewayConflictUpdate g r).identityKey = r.identityKey := by
  unfold gatewayConflictUpdate
  split <;> rfl

theorem filter_map_mixConflictUpdate (m : RegisteredMix) (k : String)
    (l : List RegisteredMix) :
    (l.map (mixConflictUpdate m)).filter (fun r => r.identityKey == k) =
      (l.filter fun r => r.identityKey == k).map (mixConflictUpdate m) := by
  have hpred : ∀ r ∈ l,
      ((fun r : RegisteredMix => r.identityKey == k) ∘ mixConflictUpdate m) r =
        (fun r : RegisteredMix => r.identityKey == k) r := by
    intro r _
    simp [Function.comp, mixConflictUpdate_identityKey]
  rw [List.filter_map, List.filter_congr hpred]

theorem filter_map_gatewayConflictUpdate (g : RegisteredGateway) (k : String)
    (l : List RegisteredGateway) :
    (l.map (gatewayConflictUpdate g)).filter (fun r => r.identityKey == k) =
      (l.filter fun r => r.identityKey == k).map (gatewayConflictUpdate g) := by
  have hpred : ∀ r ∈ l,
      ((fun r : RegisteredGateway => r.identityKey == k) ∘ gatewayConflictUpdate g) r =
        (fun r : RegisteredGateway => r.identityKey == k) r := by
    intro r _
    simp [Function.comp, gatewayConflictUpdate_identityKey]
  rw [List.filter_map, List.filter_congr hpred]

theorem registerMix_rowsFor_self (db : RegDb) (m : RegisteredMix)
    (h : (mixRowsFor db m.identityKey).length ≤ 1) :
    ∃ rep, mixRowsFor (registerMix db m) m.identityKey =
      [{ mixHost := m.mixHost, identityKey := m.identityKey, sphinxKey := m.sphinxKey,
         version := m.version, location := m.location,
         incentivesAddress := m.incentivesAddress, layer := m.layer,
         registrationTime := m.registrationTime, reputation := rep,
         deleted := m.deleted }] := by
  unfold mixRowsFor registerMix at *
  rcases hany : db.mixes.any fun r => r.identityKey == m.identityKey with _ | _
  · -- no existing row: the new row is appended
    refine ⟨m.reputation, ?_⟩
    have hnil : db.mixes.filter (fun r => r.identityKey == m.identityKey) = [] :=
      List.filter_eq_nil_iff.2 (List.any_eq_false.1 hany)
    simp [hany, List.filter_append, hnil]
  · -- existing row: the matching row is updated in place
    have hone : (db.mixes.filter fun r => r.identityKey == m.identityKey).length = 1 := by
      rcases List.any_eq_true.1 hany with ⟨x, hx, hpx⟩
      have hxmem : x ∈ db.mixes.filter fun r => r.identityKey == m.identityKey :=
        List.mem_filter.2 ⟨hx, hpx⟩
      have hpos : 0 < (db.mixes.filter fun r => r.identityKey == m.identityKey).length :=
        List.length_pos.2 (List.ne_nil_of_mem hxmem)
      omega
    rcases List.length_eq_one.1 hone with ⟨a, ha⟩
    have hamem : a ∈ db.mixes.filter fun r => r.identityKey == m.identityKey := by
      rw [ha]; exact List.mem_singleton_self a
    have haid : a.identityKey = m.identityKey := eq_of_beq (List.mem_filter.1 hamem).2
    refine ⟨a.reputation, ?_⟩
    simp only [hany, if_true, filter_map_mixConflictUpdate, ha, List.map_cons, List.map_nil]
    unfold mixConflictUpdate
    simp [haid]

theorem registerMix_rowsFor_other (db : RegDb) (m : RegisteredMix) (k : String)
    (hk : k ≠ m.identityKey) :
    mixRowsFor (registerMix db m) k = mixRowsFor db k := by
  unfold mixRowsFor registerMix
  rcases hany : db.mixes.any fun r => r.identityKey == m.identityKey with _ | _
  · have hmk : ¬(m.identityKey == k) = true := by
      simp only [beq_iff_eq]
      exact fun hkk => hk hkk.symm
    simp [hany, List.filter_append, hmk]
  · simp only [hany, if_true, filter_map_mixConflictUpdate]
    have hid : ∀ r ∈ db.mixes.filter fun r => r.identityKey == k,
        mixConflictUpdate m r = id r := by
      intro r hr
      have hrk : r.identityKey = k := eq_of_beq (List.mem_filter.1 hr).2
      unfold mixConflictUpdate
      rw [if_neg, id]
      simp only [beq_iff_eq, hrk]
      exact hk
    rw [List.map_congr_left hid, List.map_id]

theorem registerGateway_rowsFor_self (db : RegDb) (g : RegisteredGateway)
    (h : (gatewayRowsFor db g.identityKey).length ≤ 1) :
    ∃ rep, gatewayRowsFor (registerGateway db g) g.identityKey =
      [{ mixHost := g.mixHost, identityKey := g.identityKey, sphinxKey := g.sphinxKey,
         version := g.version, location := g.location,
         incentivesAddress := g.incentivesAddress, clientsHost := g.clientsHost,
         registrationTime := g.registrationTime, reputation := rep,
         deleted := g.deleted }] := by
  unfold gatewayRowsFor registerGateway at *
  rcases hany : db.gateways.any fun r => r.identityKey == g.identityKey with _ | _
  · refine ⟨g.reputation, ?_⟩
    have hnil : db.gateways.filter (fun r => r.identityKey == g.identityKey) = [] :=
      List.filter_eq_nil_iff.2 (List.any_eq_false.1 hany)
    simp [hany, List.filter_append, hnil]
  · have hone : (db.gateways.filter fun r => r.identityKey == g.identityKey).length = 1 := by
      rcases List.any_eq_true.1 hany with ⟨x, hx, hpx⟩
      have hxmem : x ∈ db.gateways.filter fun r => r.identityKey == g.identityKey :=
        List.mem_filter.2 ⟨hx, hpx⟩
      have hpos : 0 < (db.gateways.filter fun r => r.identityKey == g.identityKey).length :=
        List.length_pos.2 (List.ne_nil_of_mem hxmem)
      omega
    rcases List.length_eq_one.1 hone with ⟨a, ha⟩
    have hamem : a ∈ db.gateways.filter fun r => r.identityKey == g.identityKey := by
      rw [ha]; exact List.mem_singleton_self a
    have haid : a.identityKey = g.identityKey := eq_of_beq (List.mem_filter.1 hamem).2
    refine ⟨a.reputation, ?_⟩
    simp only [hany, if_true, filter_map_gatewayConflictUpdate, ha, List.map_cons,
      List.map_nil]
    unfold gatewayConflictUpdate
    simp [haid]

theorem registerGateway_rowsFor_other (db : RegDb) (g : RegisteredGateway) (k : String)
    (hk : k ≠ g.identityKey) :
    gatewayRowsFor (registerGateway db g) k = gatewayRowsFor db k := by
  unfold gatewayRowsFor registerGateway
  rcases hany : db.gateways.any fun r => r.identityKey == g.identityKey with _ | _
  · have hgk : ¬(g.identityKey == k) = true := by
      simp only [beq_iff_eq]
      exact fun hkk => hk hkk.symm
    simp [hany, List.filter_append, hgk]
  · simp only [hany, if_true, filter_map_gatewayConflictUpdate]
    have hid : ∀ r ∈ db.gateways.filter fun r => r.identityKey == k,
        gatewayConflictUpdate g r = id r := by
      intro r hr
      have hrk : r.identityKey = k := eq_of_beq (List.mem_filter.1 hr).2
      unfold gatewayConflictUpdate
      rw [if_neg, id]
      simp only [beq_iff_eq, hrk]
      exact hk
    rw [List.map_congr_left hid, List.map_id]

/-- C5: registration is an insert-or-update keyed by identity.  Under the
primary-key invariant (at most one stored row per identity), registering
the same identity twice leaves exactly one row for it, carrying the second
request's mutable fields and registration time, and clears the identity
from the removed set; registering two different identities leaves exactly
one row for each (two rows total when starting from an empty table).  Both
the mix and the gateway variant are covered. -/
theorem register_insert_or_update (db : RegDb) (m1 m2 : RegisteredMix)
    (g1 g2 : RegisteredGateway)
    (hm1 : (mixRowsFor db m1.identityKey).length ≤ 1)
    (hm2 : (mixRowsFor db m2.identityKey).length ≤ 1)
    (hg1 : (gatewayRowsFor db g1.identityKey).length ≤ 1)
    (hg2 : (gatewayRowsFor db g2.identityKey).length ≤ 1) :
    (m1.identityKey = m2.identityKey →
      (∃ rep, mixRowsFor (registerMix (registerMix db m1) m2) m2.identityKey =
        [{ mixHost := m2.mixHost, identityKey := m2.identityKey,
           sphinxKey := m2.sphinxKey, version := m2.version,
           location := m2.location, incentivesAddress := m2.incentivesAddress,
           layer := m2.layer, registrationTime := m2.registrationTime,
           reputation := rep, deleted := m2.deleted }]) ∧
      ∀ r ∈ (registerMix (registerMix db m1) m2).removedMixes,
        r.identityKey ≠ m2.identityKey) ∧
    (g1.identityKey = g2.identityKey →
      (∃ rep, gatewayRowsFor (registerGateway (registerGateway db g1) g2) g2.identityKey =
        [{ mixHost := g2.mixHost, identityKey := g2.identityKey,
           sphinxKey := g2.sphinxKey, version := g2.version,
           location := g2.location, incentivesAddress := g2.incentivesAddress,
           clientsHost := g2.clientsHost, registrationTime := g2.registrationTime,
           reputation := rep, deleted := g2.deleted }]) ∧
      ∀ r ∈ (registerGateway (registerGateway db g1) g2).removedGateways,
        r.identityKey ≠ g2.identityKey) ∧
    (m1.identityKey ≠ m2.identityKey →
      (mixRowsFor (registerMix (registerMix db m1) m2) m1.identityKey).length = 1 ∧
      (mixRowsFor (registerMix (registerMix db m1) m2) m2.identityKey).length = 1) ∧
    (g1.identityKey ≠ g2.identityKey →
      (gatewayRowsFor (registerGateway (registerGateway db g1) g2) g1.identityKey).length = 1 ∧
      (gatewayRowsFor (registerGateway (registerGateway db g1) g2) g2.identityKey).length = 1) ∧
    (db.mixes = [] → m1.identityKey ≠ m2.identityKey →
      (registerMix (registerMix db m1) m2).mixes.length = 2) ∧
    (db.gateways = [] → g1.identityKey ≠ g2.identityKey →
      (registerGateway (registerGateway db g1) g2).gateways.length = 2) := by
  refine ⟨fun hkey => ⟨?_, ?_⟩, fun hkey => ⟨?_, ?_⟩, fun hne => ⟨?_, ?_⟩,
    fun hne => ⟨?_, ?_⟩, fun hempty hne => ?_, fun hempty hne => ?_⟩
  · -- same mix identity twice: one row with m2's fields
    rcases registerMix_rowsFor_self db m1 hm1 with ⟨rep1, h1⟩
    refine registerMix_rowsFor_self (registerMix db m1) m2 ?_
    rw [← hkey, h1]
    simp
  · -- the removed set no longer holds the identity
    intro r hr
    have := (List.mem_filter.1 hr).2
    simpa using this
  · rcases registerGateway_rowsFor_self db g1 hg1 with ⟨rep1, h1⟩
    refine registerGateway_rowsFor_self (registerGateway db g1) g2 ?_
    rw [← hkey, h1]
    simp
  · intro r hr
    have := (List.mem_filter.1 hr).2
    simpa using this
  · -- different identities: the first row survives the second registration
    rcases registerMix_rowsFor_self db m1 hm1 with ⟨rep1, h1⟩
    rw [registerMix_rowsFor_other (registerMix db m1) m2 m1.identityKey hne, h1]
    rfl
  · -- and the second registration adds exactly one row for its identity
    have hother : mixRowsFor (registerMix db m1) m2.identityKey =
        mixRowsFor db m2.identityKey :=
      registerMix_rowsFor_other db m1 m2.identityKey (fun hkk => hne hkk.symm)
    rcases registerMix_rowsFor_self (registerMix db m1) m2 (by rw [hother]; exact hm2)
      with ⟨rep2, h2⟩
    rw [h2]
    rfl
  · rcases registerGateway_rowsFor_self db g1 hg1 with ⟨rep1, h1⟩
    rw [registerGateway_rowsFor_other (registerGateway db g1) g2 g1.identityKey hne, h1]
    rfl
  · have hother : gatewayRowsFor (registerGateway db g1) g2.identityKey =
        gatewayRowsFor db g2.identityKey :=
      registerGateway_rowsFor_other db g1 g2.identityKey (fun hkk => hne hkk.symm)
    rcases registerGateway_rowsFor_self (registerGateway db g1) g2 (by rw [hother]; exact hg2)
      with ⟨rep2, h2⟩
    rw [h2]
    rfl
  · -- two distinct identities from an empty table: two rows
    have hne2 : (m1.identityKey == m2.identityKey) = false := by
      simp [hne]
    simp [registerMix, hempty, hne2]
  · have hne2 : (g1.identityKey == g2.identityKey) = false := by
      simp [hne]
    simp [registerGateway, hempty, hne2]

/-- Witness for C5 at a concrete input: registering the same identity
twice in an empty database, and two distinct identities in an empty
database. -/
theorem register_insert_or_update_witness :
    (mixRowsFor ⟨[], [], [], []⟩ "idA").length ≤ 1 ∧
      (mixRowsFor ⟨[], [], [], []⟩ "idA").length ≤ 1 ∧
      (gatewayRowsFor ⟨[], [], [], []⟩ "idG").length ≤ 1 ∧
      (gatewayRowsFor ⟨[], [], [], []⟩ "idG").length ≤ 1 ∧
      (("idA" : String) = "idA" →
        (∃ rep, mixRowsFor
            (registerMix (registerMix ⟨[], [], [], []⟩
              ⟨"h1", "idA", "s1", "v1", "l1", "i1", 1, 10, 0, false⟩)
              ⟨"h2", "idA", "s2", "v2", "l2", "i2", 2, 20, 0, false⟩) "idA" =
          [⟨"h2", "idA", "s2", "v2", "l2", "i2", 2, 20, rep, false⟩]) ∧
        ∀ r ∈ (registerMix (registerMix ⟨[], [], [], []⟩
              ⟨"h1", "idA", "s1", "v1", "l1", "i1", 1, 10, 0, false⟩)
              ⟨"h2", "idA", "s2", "v2", "l2", "i2", 2, 20, 0, false⟩).removedMixes,
          r.identityKey ≠ "idA") := by
  have h := register_insert_or_update ⟨[], [], [], []⟩
    ⟨"h1", "idA", "s1", "v1", "l1", "i1", 1, 10, 0, false⟩
    ⟨"h2", "idA", "s2", "v2", "l2", "i2", 2, 20, 0, false⟩
    ⟨"hg", "idG", "s", "v", "l", "i", "c", 1, 0, false⟩
    ⟨"hg", "idG", "s", "v", "l", "i", "c", 1, 0, false⟩
    (by decide) (by decide) (by decide) (by decide)
  exact ⟨by decide, by decide, by decide, by decide, h.1⟩

theorem bandElim {a b : Bool} (h : (a && b) = true) : a = true ∧ b = true := by
  simp only [Bool.and_eq_true] at h
  exact h

theorem bandIntro {a b : Bool} (h1 : a = true) (h2 : b = true) : (a && b) = true := by
  simp [h1, h2]

/-- Specification of one row's fate under a conditional reputation update
with delta `δ` for identity `id`: a row that is not the target, or whose
reputation is below `-δ`, is left unchanged; a target row with reputation
at least `-δ` decreases by exactly `-δ`. -/
def condRowMix (id : String) (δ : ℤ) (r rNew : RegisteredMix) : Prop :=
  (¬(r.identityKey = id ∧ -δ ≤ r.reputation) → rNew = r) ∧
  (r.identityKey = id → -δ ≤ r.reputation →
    rNew = { r with reputation := r.reputation + δ })

/-- The gateway-table version of `condRowMix`. -/
def condRowGateway (id : String) (δ : ℤ) (r rNew : RegisteredGateway) : Prop :=
  (¬(r.identityKey = id ∧ -δ ≤ r.reputation) → rNew = r) ∧
  (r.identityKey = id → -δ ≤ r.reputation →
    rNew = { r with reputation := r.reputation + δ })

/-- Every stored reputation (mixes and gateways) is nonnegative. -/
def allRepsNonneg (db : RegDb) : Prop :=
  (∀ r ∈ db.mixes, 0 ≤ r.reputation) ∧ ∀ r ∈ db.gateways, 0 ≤ r.reputation

theorem nonneg_map_mix (p : RegisteredMix → Bool) (δ : ℤ) (l : List RegisteredMix)
    (h0 : ∀ r ∈ l, 0 ≤ r.reputation)
    (hcond : ∀ r ∈ l, p r = true → 0 ≤ r.reputation + δ) :
    ∀ r' ∈ l.map fun r => if p r then { r with reputation := r.reputation + δ } else r,
      0 ≤ r'.reputation := by
  intro r' hr'
  rcases List.mem_map.1 hr' with ⟨r, hr, rfl⟩
  by_cases hp : p r = true
  · simpa [hp] using hcond r hr hp
  · simpa [hp] using h0 r hr

theorem nonneg_map_gateway (p : RegisteredGateway → Bool) (δ : ℤ)
    (l : List RegisteredGateway)
    (h0 : ∀ r ∈ l, 0 ≤ r.reputation)
    (hcond : ∀ r ∈ l, p r = true → 0 ≤ r.reputation + δ) :
    ∀ r' ∈ l.map fun r => if p r then { r with reputation := r.reputation + δ } else r,
      0 ≤ r'.reputation := by
  intro r' hr'
  rcases List.mem_map.1 hr' with ⟨r, hr, rfl⟩
  by_cases hp : p r = true
  · simpa [hp] using hcond r hr hp
  · simpa [hp] using h0 r hr

/-- C1: `UpdateReputation` never drives a stored reputation below zero.
For a negative delta every mix row obeys the conditional-update rule
(`condRowMix`): a non-target row, or a target row with reputation below
`-δ`, is unchanged, and a target row with reputation at least `-δ`
decreases by exactly `-δ`.  The gateway table is touched only when no mix
row matched, and then obeys the same rule.  `BatchUpdateReputation` is the
entry-by-entry iteration of the very same update, and both variants
preserve nonnegativity of all stored reputations. -/
theorem updateReputation_floor (db : RegDb) (id : String) (δ : ℤ) (hδ : δ < 0) :
    List.Forall₂ (condRowMix id δ) db.mixes (updateReputation db id δ).1.mixes ∧
    ((∃ r ∈ db.mixes, r.identityKey = id ∧ -δ ≤ r.reputation) →
      (updateReputation db id δ).1.gateways = db.gateways) ∧
    ((∀ r ∈ db.mixes, ¬(r.identityKey = id ∧ -δ ≤ r.reputation)) →
      List.Forall₂ (condRowGateway id δ) db.gateways (updateReputation db id δ).1.gateways) ∧
    (∀ (d : RegDb) (l : List (String × ℤ)),
      batchUpdateReputation d l =
        l.foldl (fun d e => (updateReputation d e.1 e.2).1) d) ∧
    (∀ (d : RegDb) (id' : String) (δ' : ℤ), allRepsNonneg d →
      allRepsNonneg (updateReputation d id' δ').1) ∧
    (∀ (d : RegDb) (l : List (String × ℤ)), allRepsNonneg d →
      allRepsNonneg (batchUpdateReputation d l)) := by
  have hmixes : (updateReputation db id δ).1.mixes =
      db.mixes.map fun r =>
        if r.identityKey == id && decide (-δ ≤ r.reputation) then
          { r with reputation := r.reputation + δ }
        else r := by
    simp only [updateReputation, if_pos hδ, updateRowsWhere]
    split <;> rfl
  have hrow : ∀ r : RegisteredMix,
      condRowMix id δ r
        (if r.identityKey == id && decide (-δ ≤ r.reputation) then
          { r with reputation := r.reputation + δ }
        else r) := by
    intro r
    by_cases hp : (r.identityKey == id && decide (-δ ≤ r.reputation)) = true
    · rcases bandElim hp with ⟨hk, hc⟩
      refine ⟨fun hcon => absurd ⟨eq_of_beq hk, of_decide_eq_true hc⟩ hcon, fun _ _ => ?_⟩
      simp [hp]
    · refine ⟨fun _ => by simp [hp], fun hk hc => ?_⟩
      exact absurd (bandIntro (beq_iff_eq.2 hk) (decide_eq_true hc)) hp
  have hsingle : ∀ (d : RegDb) (id' : String) (δ' : ℤ), allRepsNonneg d →
      allRepsNonneg (updateReputation d id' δ').1 := by
    intro d id' δ' ⟨hm, hg⟩
    by_cases hneg : δ' < 0
    · simp only [updateReputation, if_pos hneg, updateRowsWhere]
      have hcondm : ∀ r ∈ d.mixes,
          (r.identityKey == id' && decide (-δ' ≤ r.reputation)) = true →
            0 ≤ r.reputation + δ' := by
        intro r _ hp
        have := of_decide_eq_true (bandElim hp).2
        omega
      have hcondg : ∀ r ∈ d.gateways,
          (r.identityKey == id' && decide (-δ' ≤ r.reputation)) = true →
            0 ≤ r.reputation + δ' := by
        intro r _ hp
        have := of_decide_eq_true (bandElim hp).2
        omega
      split
      · exact ⟨nonneg_map_mix _ δ' d.mixes hm hcondm, hg⟩
      · exact ⟨nonneg_map_mix _ δ' d.mixes hm hcondm,
          nonneg_map_gateway _ δ' d.gateways hg hcondg⟩
    · simp only [updateReputation, if_neg hneg, updateRowsWhere]
      have hcondm : ∀ r ∈ d.mixes, (r.identityKey == id') = true →
          0 ≤ r.reputation + δ' := by
        intro r hr _
        have := hm r hr
        omega
      have hcondg : ∀ r ∈ d.gateways, (r.identityKey == id') = true →
          0 ≤ r.reputation + δ' := by
        intro r hr _
        have := hg r hr
        omega
      split
      · exact ⟨nonneg_map_mix _ δ' d.mixes hm hcondm, hg⟩
      · exact ⟨nonneg_map_mix _ δ' d.mixes hm hcondm,
          nonneg_map_gateway _ δ' d.gateways hg hcondg⟩
  have hbody : ∀ (d : RegDb) (e : String × ℤ),
      batchUpdateReputation d [e] = (updateReputation d e.1 e.2).1 := by
    intro d e
    simp only [batchUpdateReputation, List.foldl_cons, List.foldl_nil, updateReputation,
      updateRowsWhere]
    by_cases hneg : e.2 < 0
    · rw [if_pos hneg, if_pos hneg]
      by_cases h0 : (d.mixes.filter fun r =>
          r.identityKey == e.1 && decide (-e.2 ≤ r.reputation)).length = 0
      · rw [if_pos h0, if_neg (by omega)]
      · rw [if_neg h0, if_pos (by omega)]
    · rw [if_neg hneg, if_neg hneg]
      by_cases h0 : (d.mixes.filter fun r => r.identityKey == e.1).length = 0
      · rw [if_pos h0, if_neg (by omega)]
      · rw [if_neg h0, if_pos (by omega)]
  have hfold : ∀ (l : List (String × ℤ)) (d : RegDb),
      batchUpdateReputation d l =
        l.foldl (fun d e => (updateReputation d e.1 e.2).1) d := by
    intro l
    induction l with
    | nil => intro d; rfl
    | cons e t ih =>
        intro d
        have h1 : batchUpdateReputation d (e :: t) =
            batchUpdateReputation (batchUpdateReputation d [e]) t := rfl
        rw [h1, hbody, List.foldl_cons, ih]
  refine ⟨?_, ?_, ?_, fun d l => hfold l d, hsingle, ?_⟩
  · rw [hmixes]
    exact List.forall₂_map_right_iff.2 (List.forall₂_same.2 fun r _ => hrow r)
  · rintro ⟨r, hr, hk, hc⟩
    have hmem : r ∈ db.mixes.filter fun r =>
        r.identityKey == id && decide (-δ ≤ r.reputation) :=
      List.mem_filter.2 ⟨hr, bandIntro (beq_iff_eq.2 hk) (decide_eq_true hc)⟩
    have hpos : 0 < (db.mixes.filter fun r =>
        r.identityKey == id && decide (-δ ≤ r.reputation)).length :=
      List.length_pos.2 (List.ne_nil_of_mem hmem)
    simp only [updateReputation, if_pos hδ, updateRowsWhere]
    rw [if_pos hpos]
  · intro hnone
    have hnil : (db.mixes.filter fun r =>
        r.identityKey == id && decide (-δ ≤ r.reputation)) = [] := by
      refine List.filter_eq_nil_iff.2 fun r hr => ?_
      intro hp
      rcases bandElim hp with ⟨hk, hc⟩
      exact hnone r hr ⟨eq_of_beq hk, of_decide_eq_true hc⟩
    have hgw : (updateReputation db id δ).1.gateways =
        db.gateways.map fun r =>
          if r.identityKey == id && decide (-δ ≤ r.reputation) then
            { r with reputation := r.reputation + δ }
          else r := by
      simp only [updateReputation, if_pos hδ, updateRowsWhere]
      rw [if_neg (by rw [hnil]; simp)]
    rw [hgw]
    refine List.forall₂_map_right_iff.2 (List.forall₂_same.2 fun r _ => ?_)
    by_cases hp : (r.identityKey == id && decide (-δ ≤ r.reputation)) = true
    · rcases bandElim hp with ⟨hk, hc⟩
      refine ⟨fun hcon => absurd ⟨eq_of_beq hk, of_decide_eq_true hc⟩ hcon, fun _ _ => ?_⟩
      simp [hp]
    · refine ⟨fun _ => by simp [hp], fun hk hc => ?_⟩
      exact absurd (bandIntro (beq_iff_eq.2 hk) (decide_eq_true hc)) hp
  · have hfoldNonneg : ∀ (t : List (String × ℤ)) (d : RegDb), allRepsNonneg d →
        allRepsNonneg (t.foldl (fun d e => (updateReputation d e.1 e.2).1) d) := by
      intro t
      induction t with
      | nil => exact fun d hd => hd
      | cons e t ih =>
          intro d hd
          rw [List.foldl_cons]
          exact ih _ (hsingle d e.1 e.2 hd)
    intro d l hd
    rw [hfold l d]
    exact hfoldNonneg l d hd

/-- Witness for C1 at a concrete input: one registered mix `"a"` with
reputation `5` and the delta `-3`. -/
theorem updateReputation_floor_witness :
    (-3 : ℤ) < 0 ∧
      (List.Forall₂ (condRowMix "a" (-3))
          (⟨[⟨"h", "a", "s", "v", "l", "i", 1, 0, 5, false⟩], [], [], []⟩ : RegDb).mixes
          (updateReputation ⟨[⟨"h", "a", "s", "v", "l", "i", 1, 0, 5, false⟩], [], [], []⟩
            "a" (-3)).1.mixes ∧
        ((∃ r ∈ (⟨[⟨"h", "a", "s", "v", "l", "i", 1, 0, 5, false⟩], [], [], []⟩ : RegDb).mixes,
            r.identityKey = "a" ∧ -(-3 : ℤ) ≤ r.reputation) →
          (updateReputation ⟨[⟨"h", "a", "s", "v", "l", "i", 1, 0, 5, false⟩], [], [], []⟩
            "a" (-3)).1.gateways =
          (⟨[⟨"h", "a", "s", "v", "l", "i", 1, 0, 5, false⟩], [], [], []⟩ : RegDb).gateways) ∧
        ((∀ r ∈ (⟨[⟨"h", "a", "s", "v", "l", "i", 1, 0, 5, false⟩], [], [], []⟩ : RegDb).mixes,
            ¬(r.identityKey = "a" ∧ -(-3 : ℤ) ≤ r.reputation)) →
          List.Forall₂ (condRowGateway "a" (-3))
            (⟨[⟨"h", "a", "s", "v", "l", "i", 1, 0, 5, false⟩], [], [], []⟩ : RegDb).gateways
            (updateReputation ⟨[⟨"h", "a", "s", "v", "l", "i", 1, 0, 5, false⟩], [], [], []⟩
              "a" (-3)).1.gateways) ∧
        (∀ (d : RegDb) (l : List (String × ℤ)),
          batchUpdateReputation d l =
            l.foldl (fun d e => (updateReputation d e.1 e.2).1) d) ∧
        (∀ (d : RegDb) (id' : String) (δ' : ℤ), allRepsNonneg d →
          allRepsNonneg (updateReputation d id' δ').1) ∧
        (∀ (d : RegDb) (l : List (String × ℤ)), allRepsNonneg d →
          allRepsNonneg (batchUpdateReputation d l))) :=
  ⟨by decide,
    updateReputation_floor ⟨[⟨"h", "a", "s", "v", "l", "i", 1, 0, 5, false⟩], [], [], []⟩
      "a" (-3) (by decide)⟩

/-- C8: when the candidate address parses as `host:port` and capacity is
not exhausted, the registration handler answers Conflict for a duplicate
address exactly when the host is contained as a substring in some
registered mix `mix_host` or gateway `mix_host`/`clients_host`; in
particular a distinct registered address `21.2.3.45:1789` that merely
contains the candidate host `1.2.3.4` as a substring triggers the
rejection. -/
theorem duplicateIp_substring_conflict (c : Controller) (p : MixRegistrationInfo)
    (host port : List Char)
    (hsplit : splitHostPort p.mixHost = some (host, port))
    (hcap : c.mixCount < MaximumMixnodes) :
    ((registerMixPresence c p).response = .conflictDuplicateIp ↔
      (∃ m ∈ c.db.mixes, strContains m.mixHost.data host = true) ∨
      ∃ g ∈ c.db.gateways, strContains g.mixHost.data host = true ∨
        strContains g.clientsHost.data host = true) ∧
    ipExists
      ⟨[⟨"21.2.3.45:1789", "idX", "s", "v", "l", "i", 1, 0, 0, false⟩], [], [], []⟩
      "1.2.3.4:1789" = true := by
  refine ⟨?_, by decide⟩
  have hle : ¬MaximumMixnodes ≤ c.mixCount := Nat.not_le.2 hcap
  have hipiff : checkForDuplicateIP c.db p.mixHost = true ↔
      (∃ m ∈ c.db.mixes, strContains m.mixHost.data host = true) ∨
      ∃ g ∈ c.db.gateways, strContains g.mixHost.data host = true ∨
        strContains g.clientsHost.data host = true := by
    unfold checkForDuplicateIP ipExists
    rw [hsplit]
    simp [List.any_eq_true]
  by_cases hdup : checkForDuplicateIP c.db p.mixHost = true
  · refine ⟨fun _ => hipiff.1 hdup, fun _ => ?_⟩
    simp [registerMixPresence, hle, hdup]
  · refine iff_of_false ?_ (fun hr => hdup (hipiff.2 hr))
    by_cases hv : p.version = SystemVersion <;>
      simp [registerMixPresence, hle, hdup, hv]

/-- Witness for C8 at a concrete input: a database holding a mix
registered at `21.2.3.45:1789` and a registration attempt from
`1.2.3.4:1789`; the handler answers Conflict although the two addresses
are distinct. -/
theorem duplicateIp_substring_conflict_witness :
    splitHostPort "1.2.3.4:1789" = some ("1.2.3.4".data, "1789".data) ∧
      (1 : Nat) < MaximumMixnodes ∧
      (((registerMixPresence
          ⟨⟨[⟨"21.2.3.45:1789", "idX", "s", "v", "l", "i", 1, 0, 0, false⟩], [], [], []⟩, 1, 0⟩
          ⟨"1.2.3.4:1789", "idN", "s", "0.9.2", "l", "i", 1⟩).response = .conflictDuplicateIp ↔
        (∃ m ∈ (⟨[⟨"21.2.3.45:1789", "idX", "s", "v", "l", "i", 1, 0, 0, false⟩],
            [], [], []⟩ : RegDb).mixes,
          strContains m.mixHost.data "1.2.3.4".data = true) ∨
        ∃ g ∈ (⟨[⟨"21.2.3.45:1789", "idX", "s", "v", "l", "i", 1, 0, 0, false⟩],
            [], [], []⟩ : RegDb).gateways,
          strContains g.mixHost.data "1.2.3.4".data = true ∨
            strContains g.clientsHost.data "1.2.3.4".data = true) ∧
      ipExists
        ⟨[⟨"21.2.3.45:1789", "idX", "s", "v", "l", "i", 1, 0, 0, false⟩], [], [], []⟩
        "1.2.3.4:1789" = true) :=
  ⟨by decide, by decide,
    duplicateIp_substring_conflict
      ⟨⟨[⟨"21.2.3.45:1789", "idX", "s", "v", "l", "i", 1, 0, 0, false⟩], [], [], []⟩, 1, 0⟩
      ⟨"1.2.3.4:1789", "idN", "s", "0.9.2", "l", "i", 1⟩
      "1.2.3.4".data "1789".data (by decide) (by decide)⟩

/-- C2 (counterexample): `RegisterGatewayPresence` does not follow the
claimed admission sequence.  At a concrete state (empty database, counts
zero) a successful gateway registration performs exactly one capacity
check and never touches the registration mutex: its event trace is
`[capacityCheck, dupIpCheck, versionCheck, insert, countUpdate]`, with no
second or third capacity check and no lock acquisition before the
insert. -/
theorem gateway_admission_counterexample :
    (registerGatewayPresence ⟨⟨[], [], [], []⟩, 0, 0⟩
      ⟨"5.6.7.8:1789", "idG", "s", "0.9.2", "l", "i", "ws://5.6.7.8:9000"⟩).response =
        .ok ∧
    (registerGatewayPresence ⟨⟨[], [], [], []⟩, 0, 0⟩
      ⟨"5.6.7.8:1789", "idG", "s", "0.9.2", "l", "i", "ws://5.6.7.8:9000"⟩).events =
      [.capacityCheck, .dupIpCheck, .versionCheck, .insert, .countUpdate] ∧
    RegEvent.lockAcquire ∉
      (registerGatewayPresence ⟨⟨[], [], [], []⟩, 0, 0⟩
        ⟨"5.6.7.8:1789", "idG", "s", "0.9.2", "l", "i", "ws://5.6.7.8:9000"⟩).events ∧
    ((registerGatewayPresence ⟨⟨[], [], [], []⟩, 0, 0⟩
        ⟨"5.6.7.8:1789", "idG", "s", "0.9.2", "l", "i", "ws://5.6.7.8:9000"⟩).events.count
      .capacityCheck) = 1 := by
  refine ⟨by decide, by decide, by decide, by decide⟩

/-- C2 (amended): `RegisterMixPresence` follows the full admission
sequence — initial capacity check (rejecting with Conflict at the 1500
ceiling), duplicate-address check, version check, capacity re-check,
mutex acquisition, a third capacity check under the mutex, and only then
the insert-or-update and count refresh.  `RegisterGatewayPresence`
performs only the initial capacity check against its 1000 ceiling,
the duplicate-address and version checks, and then inserts immediately:
no second or third capacity check and no mutex. -/
theorem admission_sequence_amended (c : Controller) (pm : MixRegistrationInfo)
    (pg : GatewayRegistrationInfo)
    (hm : c.mixCount < MaximumMixnodes) (hg : c.gatewayCount < MaximumGateways)
    (hdm : checkForDuplicateIP c.db pm.mixHost = false)
    (hdg : checkForDuplicateIP c.db pg.mixHost = false)
    (hvm : pm.version = SystemVersion) (hvg : pg.version = SystemVersion) :
    (registerMixPresence c pm).events =
      [.capacityCheck, .dupIpCheck, .versionCheck, .capacityCheck, .lockAcquire,
       .capacityCheck, .insert, .countUpdate, .lockRelease] ∧
    (registerMixPresence c pm).response = .ok ∧
    (registerMixPresence c pm).ctrl.db = serviceRegisterMix c.db pm ∧
    (registerGatewayPresence c pg).events =
      [.capacityCheck, .dupIpCheck, .versionCheck, .insert, .countUpdate] ∧
    (registerGatewayPresence c pg).response = .ok ∧
    (registerGatewayPresence c pg).ctrl.db = serviceRegisterGateway c.db pg ∧
    RegEvent.lockAcquire ∉ (registerGatewayPresence c pg).events ∧
    (∀ (d : Controller) (q : MixRegistrationInfo), MaximumMixnodes ≤ d.mixCount →
      (registerMixPresence d q).response = .conflictCapacity ∧
      (registerMixPresence d q).events = [.capacityCheck] ∧
      (registerMixPresence d q).ctrl = d) ∧
    (∀ (d : Controller) (q : GatewayRegistrationInfo), MaximumGateways ≤ d.gatewayCount →
      (registerGatewayPresence d q).response = .conflictCapacity ∧
      (registerGatewayPresence d q).events = [.capacityCheck] ∧
      (registerGatewayPresence d q).ctrl = d) := by
  have hlem : ¬MaximumMixnodes ≤ c.mixCount := Nat.not_le.2 hm
  have hleg : ¬MaximumGateways ≤ c.gatewayCount := Nat.not_le.2 hg
  refine ⟨?_, ?_, ?_, ?_, ?_, ?_, ?_, ?_, ?_⟩
  · simp [registerMixPresence, hlem, hdm, hvm]
  · simp [registerMixPresence, hlem, hdm, hvm]
  · simp [registerMixPresence, hlem, hdm, hvm]
  · simp [registerGatewayPresence, hleg, hdg, hvg]
  · simp [registerGatewayPresence, hleg, hdg, hvg]
  · simp [registerGatewayPresence, hleg, hdg, hvg]
  · simp [registerGatewayPresence, hleg, hdg, hvg]
  · intro d q hcap
    refine ⟨?_, ?_, ?_⟩ <;> simp [registerMixPresence, hcap]
  · intro d q hcap
    refine ⟨?_, ?_, ?_⟩ <;> simp [registerGatewayPresence, hcap]

/-- Witness for C2 (amended) at a concrete input: empty database, zero
counts, matching system version, non-colliding hosts. -/
theorem admission_sequence_amended_witness :
    (0 : Nat) < MaximumMixnodes ∧ (0 : Nat) < MaximumGateways ∧
      checkForDuplicateIP ⟨[], [], [], []⟩ "1.2.3.4:1789" = false ∧
      checkForDuplicateIP ⟨[], [], [], []⟩ "5.6.7.8:1789" = false ∧
      ("0.9.2" : String) = SystemVersion ∧
      ((registerMixPresence ⟨⟨[], [], [], []⟩, 0, 0⟩
          ⟨"1.2.3.4:1789", "idM", "s", "0.9.2", "l", "i", 1⟩).events =
        [.capacityCheck, .dupIpCheck, .versionCheck, .capacityCheck, .lockAcquire,
         .capacityCheck, .insert, .countUpdate, .lockRelease] ∧
      (registerMixPresence ⟨⟨[], [], [], []⟩, 0, 0⟩
          ⟨"1.2.3.4:1789", "idM", "s", "0.9.2", "l", "i", 1⟩).response = .ok ∧
      (registerMixPresence ⟨⟨[], [], [], []⟩, 0, 0⟩
          ⟨"1.2.3.4:1789", "idM", "s", "0.9.2", "l", "i", 1⟩).ctrl.db =
        serviceRegisterMix ⟨[], [], [], []⟩
          ⟨"1.2.3.4:1789", "idM", "s", "0.9.2", "l", "i", 1⟩ ∧
      (registerGatewayPresence ⟨⟨[], [], [], []⟩, 0, 0⟩
          ⟨"5.6.7.8:1789", "idG", "s", "0.9.2", "l", "i", "ws"⟩).events =
        [.capacityCheck, .dupIpCheck, .versionCheck, .insert, .countUpdate] ∧
      (registerGatewayPresence ⟨⟨[], [], [], []⟩, 0, 0⟩
          ⟨"5.6.7.8:1789", "idG", "s", "0.9.2", "l", "i", "ws"⟩).response = .ok ∧
      (registerGatewayPresence ⟨⟨[], [], [], []⟩, 0, 0⟩
          ⟨"5.6.7.8:1789", "idG", "s", "0.9.2", "l", "i", "ws"⟩).ctrl.db =
        serviceRegisterGateway ⟨[], [], [], []⟩
          ⟨"5.6.7.8:1789", "idG", "s", "0.9.2", "l", "i", "ws"⟩ ∧
      RegEvent.lockAcquire ∉
        (registerGatewayPresence ⟨⟨[], [], [], []⟩, 0, 0⟩
          ⟨"5.6.7.8:1789", "idG", "s", "0.9.2", "l", "i", "ws"⟩).events ∧
      (∀ (d : Controller) (q : MixRegistrationInfo), MaximumMixnodes ≤ d.mixCount →
        (registerMixPresence d q).response = .conflictCapacity ∧
        (registerMixPresence d q).events = [.capacityCheck] ∧
        (registerMixPresence d q).ctrl = d) ∧
      (∀ (d : Controller) (q : GatewayRegistrationInfo), MaximumGateways ≤ d.gatewayCount →
        (registerGatewayPresence d q).response = .conflictCapacity ∧
        (registerGatewayPresence d q).events = [.capacityCheck] ∧
        (registerGatewayPresence d q).ctrl = d)) :=
  ⟨by decide, by decide, by decide, by decide, by decide,
    admission_sequence_amended ⟨⟨[], [], [], []⟩, 0, 0⟩
      ⟨"1.2.3.4:1789", "idM", "s", "0.9.2", "l", "i", 1⟩
      ⟨"5.6.7.8:1789", "idG", "s", "0.9.2", "l", "i", "ws"⟩
      (by decide) (by decide) (by decide) (by decide) (by decide) (by decide)⟩

theorem getD_set_self {α : Type} (l : List α) (i : Nat) (a d : α) (h : i < l.length) :
    (l.set i a).getD i d = a := by
  rw [List.getD_eq_getElem?_getD, List.getElem?_set, if_pos rfl, if_pos h]
  rfl

theorem getD_set_ne {α : Type} (l : List α) (i j : Nat) (a d : α) (h : i ≠ j) :
    (l.set i a).getD j d = l.getD j d := by
  rw [List.getD_eq_getElem?_getD, List.getElem?_set, if_neg h, ← List.getD_eq_getElem?_getD]

theorem getD_concat_self {α : Type} (l : List α) (a d : α) :
    (l ++ [a]).getD l.length d = a := by
  rw [List.getD_eq_getElem?_getD, List.getElem?_concat_length]
  rfl

theorem updateReport_pubKey (db : StatusDb) (now : ℤ) (r : MixStatusReport)
    (s : PersistedMixStatus) : (updateReportUpToLastHour db now r s).pubKey = s.pubKey := by
  unfold updateReportUpToLastHour
  split
  · rfl
  · split <;> rfl

/-- The `mostRecent` field of the given IP version (`"4"` selects IPv4,
anything else IPv6; only `"4"` and `"6"` are used). -/
def mostRecentField (v : String) (r : MixStatusReport) : Bool :=
  if v = "4" then r.mostRecentIPV4 else r.mostRecentIPV6

theorem updateReport_mostRecentField_eq (db : StatusDb) (now : ℤ) (r : MixStatusReport)
    (s : PersistedMixStatus) (v : String) (hv : v = "4" ∨ v = "6")
    (h : s.ipVersion = v) :
    mostRecentField v (updateReportUpToLastHour db now r s) = s.up := by
  rcases hv with hv | hv <;> subst hv <;>
    simp [mostRecentField, updateReportUpToLastHour, h]

theorem updateReport_mostRecentField_ne (db : StatusDb) (now : ℤ) (r : MixStatusReport)
    (s : PersistedMixStatus) (v : String) (hv : v = "4" ∨ v = "6")
    (h : s.ipVersion ≠ v) :
    mostRecentField v (updateReportUpToLastHour db now r s) = mostRecentField v r := by
  rcases hv with hv | hv <;> subst hv <;>
    by_cases h4 : s.ipVersion = "4" <;> by_cases h6 : s.ipVersion = "6" <;>
      simp_all [updateReportUpToLastHour, mostRecentField]

/-- Invariant tying the report list to the report map during
`SaveBatchStatusReport`: the map sends a key to a valid index holding that
key, and every index is reachable from its key. -/
def reportMapInv (rs : List MixStatusReport) (m : String → Option Nat) : Prop :=
  (∀ k i, m k = some i →
    i < rs.length ∧ (rs.getD i freshMixStatusReport).pubKey = k) ∧
  (∀ i, i < rs.length → m ((rs.getD i freshMixStatusReport).pubKey) = some i)

theorem buildReportMapFrom_spec (rs : List MixStatusReport) :
    ∀ (base : Nat), (rs.map (·.pubKey)).Nodup →
      (∀ k i, buildReportMapFrom base rs k = some i →
        ∃ j, j < rs.length ∧ i = base + j ∧
          (rs.getD j freshMixStatusReport).pubKey = k) ∧
      (∀ j, j < rs.length →
        buildReportMapFrom base rs ((rs.getD j freshMixStatusReport).pubKey) =
          some (base + j)) ∧
      (∀ k, (∀ j, j < rs.length → (rs.getD j freshMixStatusReport).pubKey ≠ k) →
        buildReportMapFrom base rs k = none) := by
  induction rs with
  | nil =>
      intro base _
      refine ⟨fun k i h => ?_, fun j hj => absurd hj (by simp), fun k _ => rfl⟩
      simp [buildReportMapFrom] at h
  | cons r rest ih =>
      intro base hnd
      rw [List.map_cons, List.nodup_cons] at hnd
      obtain ⟨hnotin, hndrest⟩ := hnd
      obtain ⟨A, B, C⟩ := ih (base + 1) hndrest
      have hrestKeys : ∀ j, j < rest.length →
          (rest.getD j freshMixStatusReport).pubKey ≠ r.pubKey := by
        intro j hj hkey
        refine hnotin ?_
        rw [← hkey]
        exact List.mem_map_of_mem _
          (by rw [List.getD_eq_getElem rest _ hj]; exact List.getElem_mem hj)
      refine ⟨fun k i h => ?_, fun j hj => ?_, fun k hk => ?_⟩
      · simp only [buildReportMapFrom] at h
        cases hrec : buildReportMapFrom (base + 1) rest k with
        | some i' =>
            rw [hrec] at h
            have hii : i' = i := by simpa using h
            obtain ⟨j, hj, hij, hkey⟩ := A k i' hrec
            refine ⟨j + 1, by simpa using Nat.succ_lt_succ hj, by omega, ?_⟩
            simpa [List.getD_cons_succ] using hkey
        | none =>
            rw [hrec] at h
            by_cases hkr : (k == r.pubKey) = true
            · rw [if_pos hkr] at h
              have hbase : base = i := by simpa using h
              exact ⟨0, by simp, by omega, by simp [List.getD_cons_zero, eq_of_beq hkr]⟩
            · rw [if_neg hkr] at h
              cases h
      · cases j with
        | zero =>
            have hrec : buildReportMapFrom (base + 1) rest r.pubKey = none :=
              C r.pubKey hrestKeys
            simp only [buildReportMapFrom, List.getD_cons_zero]
            rw [hrec]
            simp
        | succ j =>
            have hj' : j < rest.length := by simpa using Nat.lt_of_succ_lt_succ hj
            have hrec := B j hj'
            simp only [buildReportMapFrom, List.getD_cons_succ]
            rw [hrec]
            have harith : base + 1 + j = base + (j + 1) := by omega
            simp [harith]
      · have hrec : buildReportMapFrom (base + 1) rest k = none := by
          refine C k fun j hj => ?_
          have := hk (j + 1) (by simpa using Nat.succ_lt_succ hj)
          simpa [List.getD_cons_succ] using this
        have hkr : ¬(k == r.pubKey) = true := by
          simp only [beq_iff_eq]
          intro hkk
          exact hk 0 (by simp) (by simp [List.getD_cons_zero, hkk])
        simp only [buildReportMapFrom]
        rw [hrec, if_neg hkr]

theorem reportMapInv_build (rs : List MixStatusReport)
    (hnd : (rs.map (·.pubKey)).Nodup) : reportMapInv rs (buildReportMapFrom 0 rs) := by
  obtain ⟨A, B, _⟩ := buildReportMapFrom_spec rs 0 hnd
  refine ⟨fun k i h => ?_, fun i hi => ?_⟩
  · obtain ⟨j, hj, hij, hkey⟩ := A k i h
    have hji : j = i := by omega
    subst hji
    exact ⟨hj, hkey⟩
  · simpa using B i hi

theorem reportMapInv_nodup (rs : List MixStatusReport) (m : String → Option Nat)
    (hinv : reportMapInv rs m) : (rs.map (·.pubKey)).Nodup := by
  rw [List.nodup_iff_injective_get]
  rintro ⟨i, hi⟩ ⟨j, hj⟩ hij
  have hi' : i < rs.length := by simpa using hi
  have hj' : j < rs.length := by simpa using hj
  rw [List.get_map, List.get_map] at hij
  have hkeys : (rs.getD i freshMixStatusReport).pubKey =
      (rs.getD j freshMixStatusReport).pubKey := by
    rw [List.getD_eq_getElem rs _ hi', List.getD_eq_getElem rs _ hj']
    simpa using hij
  have h1 := hinv.2 i hi'
  have h2 := hinv.2 j hj'
  rw [hkeys] at h1
  rw [h1] at h2
  have : i = j := by simpa using h2
  exact Fin.ext this

theorem saveBatchStep_inv (db : StatusDb) (now : ℤ) (rs : List MixStatusReport)
    (m : String → Option Nat) (s : PersistedMixStatus) (hinv : reportMapInv rs m) :
    reportMapInv (saveBatchStep db now (rs, m) s).1 (saveBatchStep db now (rs, m) s).2 := by
  unfold saveBatchStep
  cases hm : m s.pubKey with
  | some i =>
      simp only [hm]
      obtain ⟨hi, hkeyi⟩ := hinv.1 _ _ hm
      refine ⟨fun k j hj => ?_, fun j hjlen => ?_⟩
      · obtain ⟨hjlen, hkeyj⟩ := hinv.1 _ _ hj
        rw [List.length_set]
        refine ⟨hjlen, ?_⟩
        by_cases hij : i = j
        · subst hij
          rw [getD_set_self _ _ _ _ hi, updateReport_pubKey]
          rw [← hkeyj, hkeyi]
        · rw [getD_set_ne _ _ _ _ _ hij]
          exact hkeyj
      · rw [List.length_set] at hjlen
        by_cases hij : i = j
        · subst hij
          rw [getD_set_self _ _ _ _ hi, updateReport_pubKey, hm]
        · rw [getD_set_ne _ _ _ _ _ hij]
          exact hinv.2 j hjlen
  | none =>
      simp only [hm]
      have hfk : (updateReportUpToLastHour db now freshMixStatusReport s).pubKey =
          s.pubKey := updateReport_pubKey db now freshMixStatusReport s
      refine ⟨fun k j hj => ?_, fun j hjlen => ?_⟩
      · rw [List.length_append, List.length_singleton]
        simp only [mapInsert] at hj
        by_cases hkf : (k == (updateReportUpToLastHour db now freshMixStatusReport s).pubKey) = true
        · rw [if_pos hkf] at hj
          have hjlen : j = rs.length := by simpa using hj.symm
          subst hjlen
          refine ⟨by omega, ?_⟩
          rw [getD_concat_self, ← eq_of_beq hkf]
        · rw [if_neg hkf] at hj
          obtain ⟨hjlen, hkeyj⟩ := hinv.1 _ _ hj
          refine ⟨by omega, ?_⟩
          rw [List.getD_append _ _ _ j hjlen]
          exact hkeyj
      · rw [List.length_append, List.length_singleton] at hjlen
        by_cases hjl : j < rs.length
        · rw [List.getD_append _ _ _ j hjl]
          have h2 := hinv.2 j hjl
          have hne : ¬((rs.getD j freshMixStatusReport).pubKey ==
              (updateReportUpToLastHour db now freshMixStatusReport s).pubKey) = true := by
            intro hkk
            have hkk2 : (rs.getD j freshMixStatusReport).pubKey = s.pubKey := by
              have hkk3 := eq_of_beq hkk
              rw [hfk] at hkk3
              exact hkk3
            rw [hkk2] at h2
            rw [h2] at hm
            cases hm
          simp only [mapInsert]
          rw [if_neg hne]
          exact h2
        · have hj' : j = rs.length := by omega
          subst hj'
          rw [getD_concat_self]
          simp only [mapInsert]
          rw [if_pos (by simp)]

theorem saveBatchStep_presence (db : StatusDb) (now : ℤ) (rs : List MixStatusReport)
    (m : String → Option Nat) (s : PersistedMixStatus) (k : String)
    (h : m k ≠ none) : (saveBatchStep db now (rs, m) s).2 k ≠ none := by
  unfold saveBatchStep
  cases hm : m s.pubKey with
  | some i => simpa only [hm] using h
  | none =>
      simp only [hm, mapInsert]
      by_cases hkf : (k == (updateReportUpToLastHour db now freshMixStatusReport s).pubKey) = true
      · rw [if_pos hkf]
        simp
      · rw [if_neg hkf]
        exact h

theorem saveBatchStep_presence_self (db : StatusDb) (now : ℤ) (rs : List MixStatusReport)
    (m : String → Option Nat) (s : PersistedMixStatus) :
    (saveBatchStep db now (rs, m) s).2 s.pubKey ≠ none := by
  unfold saveBatchStep
  cases hm : m s.pubKey with
  | some i =>
      simp only [hm]
      simp
  | none =>
      simp only [hm, mapInsert]
      rw [if_pos (by rw [updateReport_pubKey]; simp)]
      simp

/-- After the batch fold, the entry holding key `k` (if any) carries `b`
as its `mostRecent` value for version `v`. -/
def lastWins (k v : String) (b : Bool) (rs : List MixStatusReport) : Prop :=
  ∀ i, i < rs.length → (rs.getD i freshMixStatusReport).pubKey = k →
    mostRecentField v (rs.getD i freshMixStatusReport) = b

theorem saveBatchStep_lastWins_preserve (db : StatusDb) (now : ℤ)
    (rs : List MixStatusReport) (m : String → Option Nat) (s : PersistedMixStatus)
    (k v : String) (b : Bool) (hinv : reportMapInv rs m) (hpres : m k ≠ none)
    (hS : lastWins k v b rs) (hv : v = "4" ∨ v = "6")
    (hs : ¬(s.pubKey = k ∧ s.ipVersion = v)) :
    lastWins k v b (saveBatchStep db now (rs, m) s).1 := by
  unfold saveBatchStep
  cases hm : m s.pubKey with
  | some i =>
      simp only [hm]
      obtain ⟨hi, hkeyi⟩ := hinv.1 _ _ hm
      intro j hj hkey
      rw [List.length_set] at hj
      by_cases hij : i = j
      · subst hij
        rw [getD_set_self _ _ _ _ hi] at hkey ⊢
        have hspk : s.pubKey = k := by rw [updateReport_pubKey] at hkey; exact hkey
        have hver : s.ipVersion ≠ v := fun hv2 => hs ⟨hspk, hv2⟩
        rw [updateReport_mostRecentField_ne db now _ s v hv hver]
        exact hS i hi (by rw [hkeyi, hspk])
      · rw [getD_set_ne _ _ _ _ _ hij] at hkey ⊢
        exact hS j hj hkey
  | none =>
      simp only [hm]
      intro j hj hkey
      rw [List.length_append, List.length_singleton] at hj
      by_cases hjl : j < rs.length
      · rw [List.getD_append _ _ _ j hjl] at hkey ⊢
        exact hS j hjl hkey
      · have hj' : j = rs.length := by omega
        subst hj'
        rw [getD_concat_self] at hkey
        rw [updateReport_pubKey] at hkey
        rw [hkey] at hm
        exact absurd hm hpres

theorem saveBatchStep_lastWins_establish (db : StatusDb) (now : ℤ)
    (rs : List MixStatusReport) (m : String → Option Nat) (s : PersistedMixStatus)
    (k v : String) (hinv : reportMapInv rs m) (hkey : s.pubKey = k)
    (hver : s.ipVersion = v) (hv : v = "4" ∨ v = "6") :
    lastWins k v s.up (saveBatchStep db now (rs, m) s).1 := by
  unfold saveBatchStep
  cases hm : m s.pubKey with
  | some i =>
      simp only [hm]
      obtain ⟨hi, hkeyi⟩ := hinv.1 _ _ hm
      intro j hj hkeyj
      rw [List.length_set] at hj
      by_cases hij : i = j
      · subst hij
        rw [getD_set_self _ _ _ _ hi]
        exact updateReport_mostRecentField_eq db now _ s v hv hver
      · exfalso
        rw [getD_set_ne _ _ _ _ _ hij] at hkeyj
        have h2 := hinv.2 j hj
        rw [hkeyj] at h2
        rw [hkey] at hm
        rw [h2] at hm
        have : j = i := by simpa using hm
        exact hij this.symm
  | none =>
      simp only [hm]
      intro j hj hkeyj
      rw [List.length_append, List.length_singleton] at hj
      by_cases hjl : j < rs.length
      · exfalso
        rw [List.getD_append _ _ _ j hjl] at hkeyj
        have h2 := hinv.2 j hjl
        rw [hkeyj, ← hkey] at h2
        rw [h2] at hm
        cases hm
      · have hj' : j = rs.length := by omega
        subst hj'
        rw [getD_concat_self]
        exact updateReport_mostRecentField_eq db now _ s v hv hver

theorem foldl_saveBatchStep_inv (db : StatusDb) (now : ℤ)
    (l : List PersistedMixStatus) :
    ∀ (rs : List MixStatusReport) (m : String → Option Nat), reportMapInv rs m →
      reportMapInv (l.foldl (saveBatchStep db now) (rs, m)).1
        (l.foldl (saveBatchStep db now) (rs, m)).2 := by
  induction l with
  | nil => exact fun rs m h => h
  | cons s t ih =>
      intro rs m hinv
      rw [List.foldl_cons]
      exact ih _ _ (saveBatchStep_inv db now rs m s hinv)

theorem foldl_saveBatchStep_presence (db : StatusDb) (now : ℤ)
    (l : List PersistedMixStatus) :
    ∀ (rs : List MixStatusReport) (m : String → Option Nat) (k : String), m k ≠ none →
      (l.foldl (saveBatchStep db now) (rs, m)).2 k ≠ none := by
  induction l with
  | nil => exact fun rs m k h => h
  | cons s t ih =>
      intro rs m k h
      rw [List.foldl_cons]
      exact ih _ _ k (saveBatchStep_presence db now rs m s k h)

theorem foldl_saveBatchStep_presence_of_mem (db : StatusDb) (now : ℤ)
    (l : List PersistedMixStatus) :
    ∀ (rs : List MixStatusReport) (m : String → Option Nat) (s : PersistedMixStatus),
      s ∈ l → (l.foldl (saveBatchStep db now) (rs, m)).2 s.pubKey ≠ none := by
  induction l with
  | nil => intro rs m s hs; cases hs
  | cons x t ih =>
      intro rs m s hs
      rw [List.foldl_cons]
      rcases List.mem_cons.1 hs with hsx | hst
      · subst hsx
        exact foldl_saveBatchStep_presence db now t _ _ s.pubKey
          (saveBatchStep_presence_self db now rs m s)
      · exact ih _ _ s hst

theorem foldl_saveBatchStep_lastWins (db : StatusDb) (now : ℤ)
    (l : List PersistedMixStatus) :
    ∀ (rs : List MixStatusReport) (m : String → Option Nat) (k v : String) (b : Bool),
      reportMapInv rs m → m k ≠ none → lastWins k v b rs → (v = "4" ∨ v = "6") →
      (∀ t ∈ l, ¬(t.pubKey = k ∧ t.ipVersion = v)) →
      lastWins k v b (l.foldl (saveBatchStep db now) (rs, m)).1 := by
  induction l with
  | nil => exact fun rs m k v b _ _ hS _ _ => hS
  | cons s t ih =>
      intro rs m k v b hinv hpres hS hv hl
      rw [List.foldl_cons]
      exact ih _ _ k v b (saveBatchStep_inv db now rs m s hinv)
        (saveBatchStep_presence db now rs m s k hpres)
        (saveBatchStep_lastWins_preserve db now rs m s k v b hinv hpres hS hv
          (hl s (List.mem_cons_self s t)))
        hv (fun t2 ht2 => hl t2 (List.mem_cons_of_mem s ht2))

theorem mem_of_presence (rs : List MixStatusReport) (m : String → Option Nat)
    (k : String) (hinv : reportMapInv rs m) (h : m k ≠ none) :
    ∃ r ∈ rs, r.pubKey = k := by
  cases hmk : m k with
  | none => exact absurd hmk h
  | some i =>
      obtain ⟨hi, hkey⟩ := hinv.1 _ _ hmk
      refine ⟨rs.getD i freshMixStatusReport, ?_, hkey⟩
      rw [List.getD_eq_getElem rs _ hi]
      exact List.getElem_mem hi

/-- C6: `SaveBatchStatusReport` applies the observations in input order
and merges all observations for one node identity into a single report
entry: when the stored report keys are unique, the produced batch has
unique keys, every observed identity has an entry, and for each identity
and IP version the last matching observation in the batch determines the
saved `mostRecent` value. -/
theorem saveBatch_merge_lastWins (db : StatusDb) (now : ℤ)
    (status : List PersistedMixStatus)
    (hnd : (db.reports.map (·.pubKey)).Nodup) :
    ((saveBatchStatusReport db now status).map (·.pubKey)).Nodup ∧
    (∀ s ∈ status, ∃ r ∈ saveBatchStatusReport db now status, r.pubKey = s.pubKey) ∧
    (∀ (k v : String) (l₁ l₂ : List PersistedMixStatus) (s : PersistedMixStatus),
      (v = "4" ∨ v = "6") → status = l₁ ++ s :: l₂ → s.pubKey = k → s.ipVersion = v →
      (∀ t ∈ l₂, ¬(t.pubKey = k ∧ t.ipVersion = v)) →
      ∀ r ∈ saveBatchStatusReport db now status, r.pubKey = k →
        mostRecentField v r = s.up) := by
  have hndl : ((batchLoadReports db (status.map (·.pubKey))).map (·.pubKey)).Nodup :=
    List.Nodup.sublist (List.Sublist.map _ (List.filter_sublist _)) hnd
  have hinv0 : reportMapInv (batchLoadReports db (status.map (·.pubKey)))
      (buildReportMapFrom 0 (batchLoadReports db (status.map (·.pubKey)))) :=
    reportMapInv_build _ hndl
  have hres : saveBatchStatusReport db now status =
      (status.foldl (saveBatchStep db now)
        (batchLoadReports db (status.map (·.pubKey)),
         buildReportMapFrom 0 (batchLoadReports db (status.map (·.pubKey))))).1 := rfl
  have hinvF := foldl_saveBatchStep_inv db now status _ _ hinv0
  refine ⟨?_, ?_, ?_⟩
  · rw [hres]
    exact reportMapInv_nodup _ _ hinvF
  · intro s hs
    rw [hres]
    exact mem_of_presence _ _ s.pubKey hinvF
      (foldl_saveBatchStep_presence_of_mem db now status _ _ s hs)
  · intro k v l₁ l₂ s hv hdecomp hkey hver hl₂ r hr hrk
    subst hdecomp
    have hW : lastWins k v s.up
        ((l₁ ++ s :: l₂).foldl (saveBatchStep db now)
          (batchLoadReports db ((l₁ ++ s :: l₂).map (·.pubKey)),
           buildReportMapFrom 0 (batchLoadReports db ((l₁ ++ s :: l₂).map (·.pubKey))))).1 := by
      rw [List.foldl_append, List.foldl_cons]
      have hinv1 := foldl_saveBatchStep_inv db now l₁ _ _ hinv0
      exact foldl_saveBatchStep_lastWins db now l₂ _ _ k v s.up
        (saveBatchStep_inv db now _ _ s hinv1)
        (hkey ▸ saveBatchStep_presence_self db now _ _ s)
        (saveBatchStep_lastWins_establish db now _ _ s k v hinv1 hkey hver hv)
        hv hl₂
    rw [hres] at hr
    rcases List.mem_iff_get.1 hr with ⟨⟨i, hi⟩, hget⟩
    have hgetD :
        (((l₁ ++ s :: l₂).foldl (saveBatchStep db now)
          (batchLoadReports db ((l₁ ++ s :: l₂).map (·.pubKey)),
           buildReportMapFrom 0 (batchLoadReports db ((l₁ ++ s :: l₂).map (·.pubKey))))).1).getD i
          freshMixStatusReport = r := by
      rw [List.getD_eq_getElem _ _ hi]
      rw [← hget]
      exact (List.get_eq_getElem _ _).symm ▸ rfl
    have hfin := hW i hi (by rw [hgetD]; exact hrk)
    rw [hgetD] at hfin
    exact hfin

/-- Witness for C6 at a concrete input: a batch with two IPv4
observations for `"k1"` (first up, then down) against an empty report
table — one merged entry whose `mostRecentIPV4` is the later value. -/
theorem saveBatch_merge_lastWins_witness :
    ((⟨[], []⟩ : StatusDb).reports.map (·.pubKey)).Nodup ∧
      (((saveBatchStatusReport ⟨[], []⟩ 0
          [⟨"k1", "o", "4", true, 0⟩, ⟨"k1", "o", "4", false, 0⟩]).map (·.pubKey)).Nodup ∧
      (∀ s ∈ [(⟨"k1", "o", "4", true, 0⟩ : PersistedMixStatus), ⟨"k1", "o", "4", false, 0⟩],
        ∃ r ∈ saveBatchStatusReport ⟨[], []⟩ 0
          [⟨"k1", "o", "4", true, 0⟩, ⟨"k1", "o", "4", false, 0⟩], r.pubKey = s.pubKey) ∧
      (∀ (k v : String) (l₁ l₂ : List PersistedMixStatus) (s : PersistedMixStatus),
        (v = "4" ∨ v = "6") →
        [(⟨"k1", "o", "4", true, 0⟩ : PersistedMixStatus), ⟨"k1", "o", "4", false, 0⟩] =
          l₁ ++ s :: l₂ →
        s.pubKey = k → s.ipVersion = v →
        (∀ t ∈ l₂, ¬(t.pubKey = k ∧ t.ipVersion = v)) →
        ∀ r ∈ saveBatchStatusReport ⟨[], []⟩ 0
          [⟨"k1", "o", "4", true, 0⟩, ⟨"k1", "o", "4", false, 0⟩], r.pubKey = k →
          mostRecentField v r = s.up)) :=
  ⟨List.nodup_nil, saveBatch_merge_lastWins ⟨[], []⟩ 0
    [⟨"k1", "o", "4", true, 0⟩, ⟨"k1", "o", "4", false, 0⟩] List.nodup_nil⟩

/-- C3 (counterexample): the claim that the uptime percentage equals
`floor(100 * up / total)` for every observation count fails at
`(up, total) = (53, 100)`: the float32 pipeline of `calculatePercent`
yields `52`, while `floor(100 * 53 / 100) = 53`. -/
theorem calculatePercent_floor_counterexample :
    calculatePercent 53 100 = 52 ∧ ((100 * 53 : ℤ) / 100 = 53) ∧
      calculatePercent 53 100 ≠ (100 * 53 : ℤ) / 100 := by
  refine ⟨by decide, by decide, by decide⟩

/-- C3 (amended): `calculatePercent` truncates the float32 value
`float32(up) / float32(total) * 100` toward zero; on the quoted examples
this coincides with integer floor division — `(2,3) ↦ 66` (not 67) and
`(1,2) ↦ 50` — but not on all inputs: `(53,100) ↦ 52` although the exact
percentage is `53`. -/
theorem calculatePercent_examples :
    calculatePercent 2 3 = 66 ∧ calculatePercent 2 3 = (100 * 2 : ℤ) / 3 ∧
      calculatePercent 1 2 = 50 ∧ calculatePercent 1 2 = (100 * 1 : ℤ) / 2 ∧
      calculatePercent 53 100 = 52 := by
  refine ⟨by decide, by decide, by decide, by decide, by decide⟩

/-- C4: when no matching observations exist, `CalculateUptime` returns the
distinguished value `-1`, which is different from `0`, so a node with no
recent data is never reported as 0% uptime. -/
theorem calculateUptime_empty_distinguished (db : StatusDb) (pubkey ipVersion : String)
    (since : ℤ) (h : listMixStatusSince db pubkey ipVersion since = []) :
    calculateUptime db pubkey ipVersion since = -1 ∧ (-1 : ℤ) ≠ 0 := by
  refine ⟨?_, by decide⟩
  simp [calculateUptime, h]

/-- Witness for C4 at a concrete input: the empty store has no
observations for `"key1"`, and the uptime computed there is `-1 ≠ 0`. -/
theorem calculateUptime_empty_distinguished_witness :
    listMixStatusSince ⟨[], []⟩ "key1" "4" 0 = [] ∧
      (calculateUptime ⟨[], []⟩ "key1" "4" 0 = -1 ∧ (-1 : ℤ) ≠ 0) :=
  ⟨rfl, calculateUptime_empty_distinguished ⟨[], []⟩ "key1" "4" 0 rfl⟩

/-- C7: applying one observation to a report rewrites only the identity
and owner fields plus the `mostRecent`, 5-minute and 1-hour fields of the
observation's own IP version; both 1-day fields and every field of the
other IP version are taken unchanged from the input report, so a version
that has never reported keeps its zero-value defaults. -/
theorem updateReport_frame (db : StatusDb) (now : ℤ) (report : MixStatusReport)
    (status : PersistedMixStatus) :
    (status.ipVersion = "4" →
      updateReportUpToLastHour db now report status =
        { report with
          pubKey := status.pubKey, owner := status.owner,
          mostRecentIPV4 := status.up,
          last5MinutesIPV4 := calculateUptime db status.pubKey "4" (minutesAgo now 5),
          lastHourIPV4 := calculateUptime db status.pubKey "4" (minutesAgo now 60) }) ∧
    (status.ipVersion = "6" →
      updateReportUpToLastHour db now report status =
        { report with
          pubKey := status.pubKey, owner := status.owner,
          mostRecentIPV6 := status.up,
          last5MinutesIPV6 := calculateUptime db status.pubKey "6" (minutesAgo now 5),
          lastHourIPV6 := calculateUptime db status.pubKey "6" (minutesAgo now 60) }) ∧
    (status.ipVersion = "4" →
      (updateReportUpToLastHour db now freshMixStatusReport status).mostRecentIPV6 = false ∧
      (updateReportUpToLastHour db now freshMixStatusReport status).last5MinutesIPV6 = 0 ∧
      (updateReportUpToLastHour db now freshMixStatusReport status).lastHourIPV6 = 0 ∧
      (updateReportUpToLastHour db now freshMixStatusReport status).lastDayIPV6 = 0 ∧
      (updateReportUpToLastHour db now freshMixStatusReport status).lastDayIPV4 = 0) := by
  refine ⟨fun h => ?_, fun h => ?_, fun h => ?_⟩ <;>
    simp [updateReportUpToLastHour, h, freshMixStatusReport]

/-- Witness for C7 at a concrete input: an IPv4 observation applied to a
report with nonzero IPv6 and 1-day fields leaves those fields intact. -/
theorem updateReport_frame_witness :
    (⟨"k", "o", "4", true, 0⟩ : PersistedMixStatus).ipVersion = "4" ∧
      updateReportUpToLastHour ⟨[], []⟩ 0 ⟨"k", "o", false, 0, 0, 77, true, 88, 99, 11⟩
          ⟨"k", "o", "4", true, 0⟩ =
        { (⟨"k", "o", false, 0, 0, 77, true, 88, 99, 11⟩ : MixStatusReport) with
          pubKey := "k", owner := "o",
          mostRecentIPV4 := true,
          last5MinutesIPV4 := calculateUptime ⟨[], []⟩ "k" "4" (minutesAgo 0 5),
          lastHourIPV4 := calculateUptime ⟨[], []⟩ "k" "4" (minutesAgo 0 60) } :=
  ⟨rfl, (updateReport_frame ⟨[], []⟩ 0 ⟨"k", "o", false, 0, 0, 77, true, 88, 99, 11⟩
      ⟨"k", "o", "4", true, 0⟩).1 rfl⟩

/-- C10 (counterexample): the two revisions of the non-stale report query
are not equivalent: on a table holding one report with `lastDayIPV4 = 10`
(and zero elsewhere) the `>= 50` revision returns nothing while the `> 0`
revision returns that report. -/
theorem loadNonStale_not_equivalent :
    loadNonStaleReports [⟨"k", "", false, 0, 0, 10, false, 0, 0, 0⟩] = [] ∧
      loadNonStaleMixReports [⟨"k", "", false, 0, 0, 10, false, 0, 0, 0⟩] =
        [⟨"k", "", false, 0, 0, 10, false, 0, 0, 0⟩] ∧
      loadNonStaleReports [⟨"k", "", false, 0, 0, 10, false, 0, 0, 0⟩] ≠
        loadNonStaleMixReports [⟨"k", "", false, 0, 0, 10, false, 0, 0, 0⟩] := by
  refine ⟨by decide, by decide, by decide⟩

/-- C10 (amended): the `>= 50` revision selects a sub-sequence of what the
`> 0` revision selects (every report with a last-day uptime of at least 50
on some IP version has a positive last-day uptime on that version), but
the converse fails, e.g. for a report with `lastDayIPV4 = 10`. -/
theorem loadNonStale_sublist (reports : List MixStatusReport) :
    (loadNonStaleReports reports).Sublist (loadNonStaleMixReports reports) := by
  unfold loadNonStaleReports loadNonStaleMixReports
  refine List.monotone_filter_right reports fun r h => ?_
  simp only [Bool.or_eq_true, decide_eq_true_eq] at h ⊢
  omega

end NodeStatus
